import Mathlib

/-!
# ms912x: frame encoder and double-buffered transfer scheduler

A shallow embedding of `ms912x_simd.c` and `ms912x_transfer.c`.

Conventions of the embedding.

* A byte memory is a total function from byte offsets to values; a pointer is
  an offset into such a memory.  Stores through `u8` lvalues reduce the value
  modulo 256.
* Machine arithmetic is explicit.  The value of an `int` expression is reduced
  to the range of a 32-bit signed integer (`int_wrap`; the kernel is built
  with wrapping signed arithmetic), `unsigned int` and `u32` expressions are
  reduced modulo 2^32, and the conversions the source performs
  (`(unsigned int)rect->y2`, `(int)fb->width`, `int` to `size_t`, `(u8)u`, the
  `u8` and `__be16` header fields) are reduced modulo the width of the target
  type.  Reduction commutes with `+`, `-` and `*`, so a compound expression is
  evaluated over the integers and reduced once.
* Kernel services that the source only calls (`kmalloc`, the completion
  object, the work queue, `drm_gem_fb_begin_cpu_access`) appear as explicit
  inputs or as explicit state.
-/

namespace Ms912x

/-! ## Machine integers and memory -/

/-- Conversion of an integer to `u32`. -/
def u32_of_int (z : Int) : Nat := (z % 4294967296).toNat

/-- Conversion of an unsigned 32-bit value to `int`. -/
def int_of_u32 (n : Nat) : Int :=
  if n % 4294967296 < 2147483648 then ((n % 4294967296 : Nat) : Int)
  else ((n % 4294967296 : Nat) : Int) - 4294967296

/-- Conversion of an `int` to `u8`. -/
def u8_of_int (z : Int) : Nat := (z % 256).toNat

/-- The value of an `int` expression: the integer reduced to the range
-2^31 .. 2^31 - 1 of a 32-bit signed integer. -/
def int_wrap (z : Int) : Int := (z + 2147483648) % 4294967296 - 2147483648

/-- Conversion of an `int` to the 64-bit `size_t`: a negative value becomes a
value just below 2^64. -/
def size_of_int (z : Int) : Nat := (z % 18446744073709551616).toNat

/-- Byte memory, indexed by offset. -/
abbrev Mem := Nat → Nat

/-- Store through a `u8 *`: `m[a] = (u8)v`. -/
def store8 (m : Mem) (a v : Nat) : Mem := fun k => if k = a then v % 256 else m k

/-- Copy of `bs` to offset `a` (`memcpy(m + a, bs, len bs)`). -/
def store_bytes (m : Mem) (a : Nat) (bs : List Nat) : Mem :=
  fun k => if a ≤ k ∧ k < a + bs.length then bs.getD (k - a) 0 % 256 else m k

/-- Little-endian load through a `const u32 *` at byte offset `a`. -/
def load_le32 (m : Mem) (a : Nat) : Nat :=
  m a % 256 + 256 * (m (a + 1) % 256) + 65536 * (m (a + 2) % 256)
    + 16777216 * (m (a + 3) % 256)

/-! ## Kernel helpers used by the source -/

/-- Modelled from the spec: the kernel macro ALIGN_DOWN (linux/align.h is not
part of the sources); the spec's `floor_to_16` for `a = 16`: the largest
multiple of `a` that is at most `x`.  For an `int` operand and `a = 16` the
result is again an `int`, since -2^31 is a multiple of 16. -/
def ALIGN_DOWN (x a : Int) : Int := x - x % a

/-- Modelled from the spec: the kernel macro ALIGN (linux/align.h is not part
of the sources); the spec's `ceil_to_16` for `a = 16`: the smallest multiple
of `a` that is at least `x`, computed as the macro does in the `int` type of
its operand, `(x + (a - 1)) & ~(a - 1)`, so that `x + (a - 1)` wraps for an
operand within `a - 1` of 2^31 - 1. -/
def ALIGN (x a : Int) : Int := ALIGN_DOWN (int_wrap (x + (a - 1))) a

/-- The rectangle of drm/drm_rect.h. -/
structure drm_rect where
  x1 : Int
  y1 : Int
  x2 : Int
  y2 : Int
  deriving DecidableEq, Repr

/-- Width of a rectangle (drm/drm_rect.h): `r->x2 - r->x1`, an `int`. -/
def drm_rect_width (r : drm_rect) : Int := int_wrap (r.x2 - r.x1)

/-- Height of a rectangle (drm/drm_rect.h): `r->y2 - r->y1`, an `int`. -/
def drm_rect_height (r : drm_rect) : Int := int_wrap (r.y2 - r.y1)

/-- The fields of `struct drm_framebuffer` that the source reads:
`width`, `height` (both `unsigned int`) and `pitches[0]`. -/
structure drm_framebuffer where
  width : Nat
  height : Nat
  pitch : Nat
  deriving DecidableEq, Repr

/-- A mapping of the framebuffer memory (`struct iosys_map`). -/
structure iosys_map where
  vaddr : Mem
  is_iomem : Bool

/-! ## ms912x_simd.c: the colour converter -/

/-- The function `ms912x_rgb_to_y`: `(1048576 + 16763 * r + 32904 * g + 6391 * b) >> 16`
in `u32` arithmetic. -/
def ms912x_rgb_to_y (r g b : Nat) : Nat :=
  ((1048576 + 16763 * r + 32904 * g + 6391 * b) % 4294967296) >>> 16

/-- The function `ms912x_rgb_to_u`: `(8388608 - 9676 * r - 18996 * g + 28672 * b) >> 16`
in `u32` arithmetic (reduction modulo 2^32 commutes with `+`, `-`, `*`, so
the expression is evaluated over the integers and reduced once). -/
def ms912x_rgb_to_u (r g b : Nat) : Nat :=
  u32_of_int (8388608 - 9676 * (r : Int) - 18996 * (g : Int) + 28672 * (b : Int)) >>> 16

/-- The function `ms912x_rgb_to_v`: `(8388608 + 28672 * r - 24009 * g - 4663 * b) >> 16`
in `u32` arithmetic. -/
def ms912x_rgb_to_v (r g b : Nat) : Nat :=
  u32_of_int (8388608 + 28672 * (r : Int) - 24009 * (g : Int) - 4663 * (b : Int)) >>> 16

/-- The loop of `ms912x_xrgb_to_yuv422_avx2`,
`for (i = 0; i < width; i += 2) { ... }`, with the loop variables `i` and
`dst_offset` as arguments.  `dst` is the offset of the destination pointer in
the memory `m`, `src` the array of source pixels. -/
def xrgb_to_yuv422_loop (dst : Nat) (src : Nat → Nat) (width : Int) :
    Nat → Nat → Nat → Mem → Mem
  | 0, _, _, m => m
  | fuel + 1, i, dst_offset, m =>
    if (i : Int) < width then
      let p1 := src i
      let p2 := src (i + 1)
      let r1 := (p1 >>> 16) &&& 0xFF
      let g1 := (p1 >>> 8) &&& 0xFF
      let b1 := p1 &&& 0xFF
      let r2 := (p2 >>> 16) &&& 0xFF
      let g2 := (p2 >>> 8) &&& 0xFF
      let b2 := p2 &&& 0xFF
      let y1 := ms912x_rgb_to_y r1 g1 b1
      let y2 := ms912x_rgb_to_y r2 g2 b2
      let r_avg := (r1 + r2) / 2
      let g_avg := (g1 + g2) / 2
      let b_avg := (b1 + b2) / 2
      let u := ms912x_rgb_to_u r_avg g_avg b_avg
      let v := ms912x_rgb_to_v r_avg g_avg b_avg
      let m := store8 m (dst + dst_offset) u
      let m := store8 m (dst + (dst_offset + 1)) y1
      let m := store8 m (dst + (dst_offset + 2)) v
      let m := store8 m (dst + (dst_offset + 3)) y2
      xrgb_to_yuv422_loop dst src width fuel (i + 2) (dst_offset + 4) m
    else m

/-- The call `ms912x_xrgb_to_yuv422_avx2(dst, src, width)`: the memory after the call.
The loop advances `i` by two from zero, so `width` iterations always
suffice. -/
def ms912x_xrgb_to_yuv422_avx2 (m : Mem) (dst : Nat) (src : Nat → Nat) (width : Int) : Mem :=
  xrgb_to_yuv422_loop dst src width width.toNat 0 0 m

/-- Byte `lane` (0 to 3) of the macro-pixel that one iteration of the loop of
`ms912x_xrgb_to_yuv422_avx2` stores for the pixel pair `p1`, `p2`. -/
def macropixel_byte (p1 p2 lane : Nat) : Nat :=
  let r1 := (p1 >>> 16) &&& 0xFF
  let g1 := (p1 >>> 8) &&& 0xFF
  let b1 := p1 &&& 0xFF
  let r2 := (p2 >>> 16) &&& 0xFF
  let g2 := (p2 >>> 8) &&& 0xFF
  let b2 := p2 &&& 0xFF
  if lane = 0 then ms912x_rgb_to_u ((r1 + r2) / 2) ((g1 + g2) / 2) ((b1 + b2) / 2) % 256
  else if lane = 1 then ms912x_rgb_to_y r1 g1 b1 % 256
  else if lane = 2 then ms912x_rgb_to_v ((r1 + r2) / 2) ((g1 + g2) / 2) ((b1 + b2) / 2) % 256
  else ms912x_rgb_to_y r2 g2 b2 % 256

/-- Byte `k` of the row of macro-pixels computed from the pixels `src`. -/
def yuv422_row_byte (src : Nat → Nat) (k : Nat) : Nat :=
  macropixel_byte (src (2 * (k / 4))) (src (2 * (k / 4) + 1)) (k % 4)

/-! ## ms912x_transfer.c: the frame encoder -/

/-- The errno value ENOMEM. -/
def ENOMEM : Int := 12

/-- The errno value ETIMEDOUT. -/
def ETIMEDOUT : Int := 110

/-- The table `ms912x_end_of_buffer`. -/
def ms912x_end_of_buffer : List Nat := [0xff, 0xc0, 0x00, 0x00, 0x00, 0x00, 0x00, 0x00]

/-- The conversion `cpu_to_be16`: the two bytes, most significant first, of the value
converted to 16 bits. -/
def cpu_to_be16 (v : Int) : List Nat := [((v % 65536) / 256).toNat, (v % 256).toNat]

/-- Modelled from the spec: `struct ms912x_frame_update_header` is declared in
ms912x.h, which is not among the sources; the layout is the wire table of the
spec: magic (2 bytes), x (1), y (2, big-endian), width (1), height (2,
big-endian), 8 bytes in all.  The arguments are the values the source assigns
to the fields `header`, `x`, `y`, `width`, `height`. -/
def ms912x_frame_update_header (header x y width height : Int) : List Nat :=
  cpu_to_be16 header ++ [u8_of_int x] ++ cpu_to_be16 y ++ [u8_of_int width]
    ++ cpu_to_be16 height

/-- The call `iosys_map_memcpy_from(dst, map, offset, len)`: `len` bytes of the mapping,
from byte `offset` on, are copied to the start of `dst`. -/
def iosys_map_memcpy_from (dst : Mem) (vaddr : Mem) (offset len : Nat) : Mem :=
  fun k => if k < len then vaddr (offset + k) else dst k

/-- The pixels seen through a `const u32 *` at byte offset `a` of `m`. -/
def u32_view (m : Mem) (a : Nat) : Nat → Nat := fun k => load_le32 m (a + 4 * k)

/-- The row loop of `ms912x_fb_xrgb8888_to_yuv422`,
`for (i = y1; i < y2; i++) { ... }`.  Loop state: `i`, the byte offset
`fb_map` of the current line in the mapping, the destination pointer `dst`,
the scratch row and the destination memory.  Returns the final `dst` and the
destination memory.  The arguments `x * 4` and `width * 4` of
`iosys_map_memcpy_from` are `int` values converted to `size_t`; `dst` moves by
the `int` value `width * 2`. -/
def yuv422_rows (src : iosys_map) (fb : drm_framebuffer) (x width y2 : Int) :
    Nat → Int → Nat → Nat → Mem → Mem → Nat × Mem
  | 0, _, _, dst, _, m => (dst, m)
  | fuel + 1, i, fb_map, dst, temp_buffer, m =>
    if i < y2 then
      -- if (!line_map.is_iomem) ms912x_xrgb_to_yuv422_avx2(dst, line_map.vaddr, width);
      let m := if !src.is_iomem then
          ms912x_xrgb_to_yuv422_avx2 m dst (u32_view src.vaddr fb_map) width
        else m
      -- iosys_map_memcpy_from(temp_buffer, &fb_map, x * 4, width * 4);
      let temp_buffer :=
        iosys_map_memcpy_from temp_buffer src.vaddr (fb_map + size_of_int (int_wrap (x * 4)))
          (size_of_int (int_wrap (width * 4)))
      -- ms912x_xrgb_to_yuv422_avx2(dst, temp_buffer, width);
      let m := ms912x_xrgb_to_yuv422_avx2 m dst (u32_view temp_buffer 0) width
      yuv422_rows src fb x width y2 fuel (i + 1) (fb_map + fb.pitch)
        ((dst : Int) + int_wrap (width * 2)).toNat temp_buffer m
    else (dst, m)

/-- What a call of the encoder leaves behind: the return value, the
destination memory, and the offset one past the last byte it stored (zero
when it stored nothing). -/
structure yuv422_result where
  ret : Int
  buf : Mem
  tail : Nat

/-- The call `ms912x_fb_xrgb8888_to_yuv422(dst, src, fb, rect)`.  `dst` is the
destination memory (the pointer is its offset 0); `temp_buffer` is the result
of `kmalloc(width * 4, GFP_KERNEL)`: `none` for NULL, otherwise the
(arbitrary) initial contents of the allocation.  The offset of the first line,
`y1 * fb->pitches[0]`, is an `unsigned int` product. -/
def ms912x_fb_xrgb8888_to_yuv422 (dst : Mem) (src : iosys_map) (fb : drm_framebuffer)
    (rect : drm_rect) (temp_buffer : Option Mem) : yuv422_result :=
  let y1 := rect.y1
  let y2 := int_of_u32 (min (u32_of_int rect.y2) fb.height)
  let x := rect.x1
  let width := drm_rect_width rect
  match temp_buffer with
  | none => { ret := -ENOMEM, buf := dst, tail := 0 }
  | some temp =>
    let m := store_bytes dst 0
      (ms912x_frame_update_header 0xff00 (x.tdiv 16) y1 (width.tdiv 16) (drm_rect_height rect))
    let rows := yuv422_rows src fb x width y2 (y2 - y1).toNat y1 (u32_of_int (y1 * fb.pitch))
      8 temp m
    { ret := 0
      buf := store_bytes rows.2 rows.1 ms912x_end_of_buffer
      tail := rows.1 + 8 }

/-- The XRGB8888 pixel at `(row, col)` of the mapped framebuffer: the four
bytes at byte offset `row * pitches[0] + 4 * col`. -/
def fb_pixel (src : iosys_map) (fb : drm_framebuffer) (row col : Nat) : Nat :=
  load_le32 src.vaddr (row * fb.pitch + 4 * col)

/-! ## ms912x_transfer.c: the transfer scheduler -/

/-- Modelled from the spec: `struct ms912x_usb_request` is declared in
ms912x.h, which is not among the sources (the spec's TransferSlot).  The
fields are those the source uses: the buffer, `alloc_len`, `transfer_len`,
the completion `done` (the number of `complete()` calls not yet consumed by a
successful wait) and whether the work item is queued and
`ms912x_request_work` has not yet finished (the spec's `Submitted`). -/
structure ms912x_usb_request where
  transfer_buffer : Mem
  alloc_len : Nat
  transfer_len : Int
  done : Nat
  work_queued : Bool

/-- Modelled from the spec: `struct ms912x_device` is declared in ms912x.h,
which is not among the sources (the spec's TransferScheduler): exactly two
requests and `current_request`, which is 0 or 1. -/
structure ms912x_device where
  requests : Fin 2 → ms912x_usb_request
  current_request : Fin 2

/-- The `width` local of `ms912x_fb_send_rect` (line 188), an `int`. -/
def send_rect_width (fb : drm_framebuffer) (rect : drm_rect) : Int :=
  int_wrap (min (ALIGN rect.x2 16) (ALIGN_DOWN (int_of_u32 fb.width) 16) - ALIGN_DOWN rect.x1 16)

/-- The rectangle rewrite at the head of `ms912x_fb_send_rect` (lines 184-190):
`x = ALIGN_DOWN(rect->x1, 16)`,
`width = min(ALIGN(rect->x2, 16), ALIGN_DOWN((int)fb->width, 16)) - x`,
`rect->x1 = x`, `rect->x2 = x + width`. -/
def send_rect_align (fb : drm_framebuffer) (rect : drm_rect) : drm_rect :=
  let x := ALIGN_DOWN rect.x1 16
  let width := send_rect_width fb rect
  { rect with x1 := x, x2 := int_wrap (x + width) }

/-- What a call of `ms912x_fb_send_rect` leaves behind: the return value, the
device state and the caller's rectangle (rewritten in place). -/
structure send_rect_result where
  ret : Int
  dev : ms912x_device
  rect : drm_rect

/-- The call `ms912x_fb_send_rect(fb, map, rect)` on the device `ms912x`.
`cpu_access` is the return value of `drm_gem_fb_begin_cpu_access`,
`temp_buffer` the result of the encoder's `kmalloc`.
`wait_for_completion_timeout(&prev_request->done, 0)` returns 0 when `done`
is zero and otherwise decrements it; `queue_work` marks the work item
queued.  The length `width * 2 * drm_rect_height(rect) + 16` is an `int`
expression. -/
def ms912x_fb_send_rect (ms912x : ms912x_device) (fb : drm_framebuffer) (map : iosys_map)
    (rect : drm_rect) (cpu_access : Int) (temp_buffer : Option Mem) : send_rect_result :=
  let width := send_rect_width fb rect
  let rect := send_rect_align fb rect
  let current_request := ms912x.current_request
  let prev_request := 1 - ms912x.current_request
  if cpu_access < 0 then { ret := cpu_access, dev := ms912x, rect := rect }
  else
    let enc := ms912x_fb_xrgb8888_to_yuv422
      (ms912x.requests current_request).transfer_buffer map fb rect temp_buffer
    let ms912x := { ms912x with
      requests := Function.update ms912x.requests current_request
        { ms912x.requests current_request with transfer_buffer := enc.buf } }
    if enc.ret < 0 then { ret := enc.ret, dev := ms912x, rect := rect }
    else if (ms912x.requests prev_request).done = 0 then
      { ret := -ETIMEDOUT, dev := ms912x, rect := rect }
    else
      let ms912x := { ms912x with
        requests := Function.update ms912x.requests prev_request
          { ms912x.requests prev_request with
            done := (ms912x.requests prev_request).done - 1 } }
      let ms912x := { ms912x with
        requests := Function.update ms912x.requests current_request
          { ms912x.requests current_request with
            transfer_len := int_wrap (width * 2 * drm_rect_height rect + 16)
            work_queued := true } }
      { ret := enc.ret
        dev := { ms912x with current_request := 1 - ms912x.current_request }
        rect := rect }

/-- The worker `ms912x_request_work` for request `i`, run to its end: the transfer has
been waited for (or cancelled by the timer) and `complete(&request->done)`
has been called; the work item is no longer queued. -/
def ms912x_request_work (ms912x : ms912x_device) (i : Fin 2) : ms912x_device :=
  { ms912x with
    requests := Function.update ms912x.requests i
      { ms912x.requests i with
        done := (ms912x.requests i).done + 1
        work_queued := false } }

/-- One step of the scheduler: a call of `ms912x_fb_send_rect` with any
arguments and any outcome of its kernel calls, or the end of
`ms912x_request_work` for a request whose work item is queued. -/
inductive sched_step : ms912x_device → ms912x_device → Prop
  | send_rect (d : ms912x_device) (fb : drm_framebuffer) (map : iosys_map) (rect : drm_rect)
      (cpu_access : Int) (temp_buffer : Option Mem) :
      sched_step d (ms912x_fb_send_rect d fb map rect cpu_access temp_buffer).dev
  | request_work (d : ms912x_device) (i : Fin 2) (h : (d.requests i).work_queued = true) :
      sched_step d (ms912x_request_work d i)

/-- The states the scheduler can reach from `d0`. -/
def sched_reachable (d0 d : ms912x_device) : Prop := Relation.ReflTransGen sched_step d0 d

/-- Initial states: no work item is queued and at most one completion signal
is pending. -/
def sched_init (d : ms912x_device) : Prop :=
  (∀ i, (d.requests i).work_queued = false) ∧ (d.requests 0).done + (d.requests 1).done ≤ 1

/-- The number of unconsumed completion signals of a request plus one if its
work item is queued. -/
def slot_tokens (r : ms912x_usb_request) : Nat := r.done + (if r.work_queued then 1 else 0)

/-- The invariant of the scheduler: over both requests there is at most one
token (pending signal or queued work item), and the work item of the request
at `current_request` is not queued. -/
def sched_inv (d : ms912x_device) : Prop :=
  slot_tokens (d.requests 0) + slot_tokens (d.requests 1) ≤ 1 ∧
  (d.requests d.current_request).work_queued = false

/-- The arguments of one call of `ms912x_fb_send_rect` together with the
outcomes of its kernel calls. -/
structure send_rect_call where
  fb : drm_framebuffer
  map : iosys_map
  rect : drm_rect
  cpu_access : Int
  temp_buffer : Option Mem

/-- A sequence of calls of `ms912x_fb_send_rect` with no worker finishing in
between: the final device state and the return values in call order. -/
def send_rect_seq : ms912x_device → List send_rect_call → ms912x_device × List Int
  | d, [] => (d, [])
  | d, c :: cs =>
    ((send_rect_seq (ms912x_fb_send_rect d c.fb c.map c.rect c.cpu_access c.temp_buffer).dev cs).1,
      (ms912x_fb_send_rect d c.fb c.map c.rect c.cpu_access c.temp_buffer).ret
        :: (send_rect_seq
            (ms912x_fb_send_rect d c.fb c.map c.rect c.cpu_access c.temp_buffer).dev cs).2)

/-- The scheduling state of the device: `current_request`, which work items
are queued, and the pending completion signals. -/
def sched_state (d : ms912x_device) : Fin 2 × (Fin 2 → Bool) × (Fin 2 → Nat) :=
  (d.current_request, fun i => (d.requests i).work_queued, fun i => (d.requests i).done)

/-- The red channel of an XRGB pixel, as the converter extracts it. -/
def xrgb_r (p : Nat) : Nat := (p >>> 16) &&& 0xFF

/-- The green channel of an XRGB pixel, as the converter extracts it. -/
def xrgb_g (p : Nat) : Nat := (p >>> 8) &&& 0xFF

/-- The blue channel of an XRGB pixel, as the converter extracts it. -/
def xrgb_b (p : Nat) : Nat := p &&& 0xFF

/-- Saturation of an integer to the range of a byte. -/
def clamp8 (z : Int) : Int := max 0 (min 255 z)

/-- The luma formula in the words of the spec, over the integers:
`clamp8((65536 + 16763 r + 32904 g + 6391 b) >> 16)`. -/
def spec_luma (r g b : Int) : Int :=
  clamp8 ((65536 + 16763 * r + 32904 * g + 6391 * b) >>> (16 : Nat))

/-- The luma formula with the offset of the source, `16 << 16 = 1048576`,
over the integers. -/
def luma_exact (r g b : Int) : Int :=
  clamp8 ((1048576 + 16763 * r + 32904 * g + 6391 * b) >>> (16 : Nat))

/-- The chroma formula for U in the words of the spec, over the integers:
`clamp8((8388608 - 9676 r - 18996 g + 28672 b) >> 16)`. -/
def spec_chroma_u (r g b : Int) : Int :=
  clamp8 ((8388608 - 9676 * r - 18996 * g + 28672 * b) >>> (16 : Nat))

/-- The chroma formula for V in the words of the spec, over the integers:
`clamp8((8388608 + 28672 r - 24009 g - 4663 b) >> 16)`. -/
def spec_chroma_v (r g b : Int) : Int :=
  clamp8 ((8388608 + 28672 * r - 24009 * g - 4663 * b) >>> (16 : Nat))

/-- The `u32` computation of `ms912x_rgb_to_y` on `r`, `g`, `b` stays inside
0 .. 2^32 - 1 (it only adds, so it can only wrap upwards) and its result fits
a byte. -/
def y_no_wrap (r g b : Nat) : Prop :=
  1048576 + 16763 * r + 32904 * g + 6391 * b < 4294967296 ∧ ms912x_rgb_to_y r g b < 256

/-- The `u32` computation of `ms912x_rgb_to_u` on `r`, `g`, `b` stays inside
0 .. 2^32 - 1 after every operation, left to right, and its result fits a
byte. -/
def u_no_wrap (r g b : Nat) : Prop :=
  0 ≤ (8388608 : Int) - 9676 * r ∧
  0 ≤ (8388608 : Int) - 9676 * r - 18996 * g ∧
  0 ≤ (8388608 : Int) - 9676 * r - 18996 * g + 28672 * b ∧
  (8388608 : Int) - 9676 * r - 18996 * g + 28672 * b < 4294967296 ∧
  ms912x_rgb_to_u r g b < 256

/-- The `u32` computation of `ms912x_rgb_to_v` on `r`, `g`, `b` stays inside
0 .. 2^32 - 1 after every operation, left to right, and its result fits a
byte. -/
def v_no_wrap (r g b : Nat) : Prop :=
  (8388608 : Int) + 28672 * r < 4294967296 ∧
  0 ≤ (8388608 : Int) + 28672 * r - 24009 * g ∧
  0 ≤ (8388608 : Int) + 28672 * r - 24009 * g - 4663 * b ∧
  (8388608 : Int) + 28672 * r - 24009 * g - 4663 * b < 4294967296 ∧
  ms912x_rgb_to_v r g b < 256

/-! ## Concrete inputs -/

/-- A memory of zero bytes. -/
def zero_mem : Mem := fun _ => 0

/-- A 1366 x 768 XRGB8888 framebuffer. -/
def fb_1366 : drm_framebuffer := { width := 1366, height := 768, pitch := 5464 }

/-- A 16 x 1 XRGB8888 framebuffer. -/
def fb_16x1 : drm_framebuffer := { width := 16, height := 1, pitch := 64 }

/-- An all-black framebuffer mapping in I/O memory. -/
def map_black : iosys_map := { vaddr := zero_mem, is_iomem := true }

/-- The rectangle of the end-to-end scenario. -/
def rect_scenario : drm_rect := { x1 := 10, y1 := 0, x2 := 20, y2 := 1 }

/-- A request at rest: nothing queued, no signal pending. -/
def request_idle : ms912x_usb_request :=
  { transfer_buffer := zero_mem, alloc_len := 2098192, transfer_len := 0, done := 0,
    work_queued := false }

/-- The device with both requests at rest, request 1 holding one completion
signal, and `current_request = 0`. -/
def dev_primed : ms912x_device :=
  { requests := fun i => if i = 1 then { request_idle with done := 1 } else request_idle
    current_request := 0 }

/-- The device after one accepted frame: request 0 is in flight. -/
def dev_busy : ms912x_device :=
  (ms912x_fb_send_rect dev_primed fb_1366 map_black rect_scenario 0 (some zero_mem)).dev

/-- A call whose kernel services succeed. -/
def call_ok : send_rect_call :=
  { fb := fb_1366, map := map_black, rect := rect_scenario, cpu_access := 0,
    temp_buffer := some zero_mem }

/-- A call whose scratch allocation fails. -/
def call_nomem : send_rect_call :=
  { fb := fb_1366, map := map_black, rect := rect_scenario, cpu_access := 0,
    temp_buffer := none }

/-- A 16-aligned rectangle that reaches one row below the 16 x 1
framebuffer. -/
def rect_tall : drm_rect := { x1 := 0, y1 := 0, x2 := 16, y2 := 2 }

/-- A 16-aligned rectangle with a negative `y2`. -/
def rect_neg : drm_rect := { x1 := 0, y1 := 0, x2 := 16, y2 := -1 }

/-- The aligned rectangle of the end-to-end scenario. -/
def rect_aligned : drm_rect := { x1 := 0, y1 := 0, x2 := 32, y2 := 1 }

/-- A row of black pixels. -/
def black_row : Nat → Nat := fun _ => 0

/-- A row of white pixels, with the unused byte set. -/
def white_row : Nat → Nat := fun _ => 0xFFFFFFFF

/-- A row of mid-gray pixels (r = g = b = 128). -/
def gray_row : Nat → Nat := fun _ => 0x808080

/-- A row of white pixels, with the unused byte clear. -/
def white_row_x0 : Nat → Nat := fun _ => 0x00FFFFFF

/-- A framebuffer 65537 rows high whose pitch is 65536 bytes: the byte offset
of row 65536 is 2^32. -/
def fb_pitch_64k : drm_framebuffer := { width := 16, height := 65537, pitch := 65536 }

/-- A 16-aligned rectangle that holds row 65536 only. -/
def rect_row_64k : drm_rect := { x1 := 0, y1 := 65536, x2 := 16, y2 := 65537 }

/-- A framebuffer mapping in I/O memory whose first 64 bytes, the first 16
pixels of row 0, are white; every other byte is zero. -/
def map_row0_white : iosys_map :=
  { vaddr := fun k => if k < 64 then 0xFF else 0, is_iomem := true }

/-- A 65536 x 16384 XRGB8888 framebuffer: 8 + 2 * width * height + 8 is
2^31 + 16. -/
def fb_64k_16k : drm_framebuffer := { width := 65536, height := 16384, pitch := 262144 }

/-- The full frame of the 65536 x 16384 framebuffer. -/
def rect_64k_16k : drm_rect := { x1 := 0, y1 := 0, x2 := 65536, y2 := 16384 }

/-- The primed device with buffers of 8 + 2 * 65536 * 16384 + 8 bytes. -/
def dev_large : ms912x_device :=
  { requests := fun i =>
      if i = 1 then { request_idle with alloc_len := 2147483664, done := 1 }
      else { request_idle with alloc_len := 2147483664 }
    current_request := 0 }

/-- A framebuffer whose width is 2^32 - 1, the largest `unsigned int`; only
the width matters to the alignment step. -/
def fb_width_u32_max : drm_framebuffer := { width := 4294967295, height := 1, pitch := 0 }

/-- A framebuffer whose width is 2^31 - 1, the largest `int`; only the width
matters to the alignment step. -/
def fb_width_int_max : drm_framebuffer := { width := 2147483647, height := 1, pitch := 0 }

/-- The first 16 columns of row 0. -/
def rect_first_16 : drm_rect := { x1 := 0, y1 := 0, x2 := 16, y2 := 1 }

/-- Row 0 up to column 2^31 - 1. -/
def rect_int_max : drm_rect := { x1 := 0, y1 := 0, x2 := 2147483647, y2 := 1 }

/-! ## Theorems -/

theorem ALIGN_DOWN_mod (x : Int) : ALIGN_DOWN x 16 % 16 = 0 := by
  unfold ALIGN_DOWN; omega

theorem ALIGN_mod (x : Int) : ALIGN x 16 % 16 = 0 := by
  unfold ALIGN; exact ALIGN_DOWN_mod _

theorem ALIGN_DOWN_mono {x y : Int} (h : x ≤ y) : ALIGN_DOWN x 16 ≤ ALIGN_DOWN y 16 := by
  unfold ALIGN_DOWN; omega

theorem int_of_u32_le (n : Nat) : int_of_u32 n ≤ (n : Int) := by
  unfold int_of_u32
  split <;> omega

theorem int_of_u32_range (n : Nat) :
    -2147483648 ≤ int_of_u32 n ∧ int_of_u32 n < 2147483648 := by
  unfold int_of_u32
  split <;> omega

theorem int_wrap_range (z : Int) : -2147483648 ≤ int_wrap z ∧ int_wrap z < 2147483648 := by
  unfold int_wrap; omega

theorem int_wrap_eq (z : Int) (h0 : -2147483648 ≤ z) (h1 : z < 2147483648) : int_wrap z = z := by
  unfold int_wrap; omega

/-- Subtracting and adding back the same `int` gives the original `int`, also
when the difference wraps. -/
theorem int_wrap_add_sub (x m : Int) (h0 : -2147483648 ≤ m) (h1 : m < 2147483648) :
    int_wrap (x + int_wrap (m - x)) = m := by
  unfold int_wrap; omega

theorem ALIGN_DOWN_range (x : Int) (h0 : -2147483648 ≤ x) (h1 : x < 2147483648) :
    -2147483648 ≤ ALIGN_DOWN x 16 ∧ ALIGN_DOWN x 16 < 2147483648 := by
  unfold ALIGN_DOWN; omega

theorem ALIGN_range (x : Int) : -2147483648 ≤ ALIGN x 16 ∧ ALIGN x 16 < 2147483648 := by
  unfold ALIGN
  exact ALIGN_DOWN_range _ (int_wrap_range _).1 (int_wrap_range _).2

theorem int_of_u32_eq (n : Nat) (h : n < 2147483648) : int_of_u32 n = (n : Int) := by
  unfold int_of_u32
  rw [Nat.mod_eq_of_lt (by omega), if_pos h]

/-- `ALIGN(x, 16)` rounds up when `x + 15` is an `int`. -/
theorem ALIGN_eq (x : Int) (h0 : 0 ≤ x) (h1 : x ≤ 2147483632) :
    ALIGN x 16 = x + 15 - (x + 15) % 16 := by
  unfold ALIGN ALIGN_DOWN
  rw [int_wrap_eq _ (by omega) (by omega)]
  omega

/-- The rewritten `x1` and `x2`: the subtraction of `x` in `width` and its
addition in `rect->x2 = x + width` cancel, also when they wrap. -/
theorem send_rect_align_xs (fb : drm_framebuffer) (rect : drm_rect) :
    (send_rect_align fb rect).x1 = ALIGN_DOWN rect.x1 16 ∧
    (send_rect_align fb rect).x2
      = min (ALIGN rect.x2 16) (ALIGN_DOWN (int_of_u32 fb.width) 16) := by
  refine ⟨rfl, ?_⟩
  have hA := ALIGN_range rect.x2
  have hB := ALIGN_DOWN_range (int_of_u32 fb.width) (int_of_u32_range _).1 (int_of_u32_range _).2
  simp only [send_rect_align, send_rect_width]
  apply int_wrap_add_sub
  · exact le_min hA.1 hB.1
  · exact lt_of_le_of_lt (min_le_left _ _) hA.2

/-- C1. After the alignment step of `ms912x_fb_send_rect` the rewritten
rectangle has `x1 % 16 = 0`, `(x2 - x1) % 16 = 0` and
`x2 ≤ floor_to_16(fb_width)`, for every rectangle and every framebuffer
width; the new `x1` is `floor_to_16` of the old one and the new `x2` is the
minimum the source computes. -/
theorem send_rect_align_aligned (fb : drm_framebuffer) (rect : drm_rect) :
    (send_rect_align fb rect).x1 % 16 = 0 ∧
    ((send_rect_align fb rect).x2 - (send_rect_align fb rect).x1) % 16 = 0 ∧
    (send_rect_align fb rect).x2 ≤ ALIGN_DOWN (fb.width : Int) 16 ∧
    (send_rect_align fb rect).x1 = ALIGN_DOWN rect.x1 16 ∧
    (send_rect_align fb rect).x2
      = min (ALIGN rect.x2 16) (ALIGN_DOWN (int_of_u32 fb.width) 16) := by
  have h1 := ALIGN_DOWN_mod rect.x1
  have h2 := ALIGN_mod rect.x2
  have h3 := ALIGN_DOWN_mod (int_of_u32 fb.width)
  have h4 := ALIGN_DOWN_mono (int_of_u32_le fb.width)
  obtain ⟨e1, e2⟩ := send_rect_align_xs fb rect
  rw [e1, e2]
  refine ⟨h1, ?_, ?_, rfl, rfl⟩
  · rcases min_choice (ALIGN rect.x2 16) (ALIGN_DOWN (int_of_u32 fb.width) 16) with h | h
      <;> rw [h] <;> omega
  · have := min_le_right (ALIGN rect.x2 16) (ALIGN_DOWN (int_of_u32 fb.width) 16)
    omega

/-! ### The colour converter, byte by byte -/

theorem xrgb_to_yuv422_loop_apply (dst : Nat) (src : Nat → Nat) (width : Int) :
    ∀ (fuel i off : Nat) (m : Mem) (k : Nat),
      ((width - i + 1) / 2).toNat ≤ fuel →
      xrgb_to_yuv422_loop dst src width fuel i off m k =
        if dst + off ≤ k ∧ k < dst + off + 4 * ((width - i + 1) / 2).toNat then
          macropixel_byte (src (i + 2 * ((k - (dst + off)) / 4)))
            (src (i + 2 * ((k - (dst + off)) / 4) + 1)) ((k - (dst + off)) % 4)
        else m k := by
  intro fuel
  induction fuel with
  | zero =>
    intro i off m k h
    have h0 : ((width - i + 1) / 2).toNat = 0 := by omega
    simp only [xrgb_to_yuv422_loop, h0]
    rw [if_neg (by omega)]
  | succ fuel ih =>
    intro i off m k h
    by_cases hi : (i : Int) < width
    · have hn : ((width - ((i + 2 : Nat) : Int) + 1) / 2).toNat ≤ fuel := by
        push_cast; omega
      have hs : ((width - i + 1) / 2).toNat
          = ((width - ((i + 2 : Nat) : Int) + 1) / 2).toNat + 1 := by
        push_cast; omega
      simp only [xrgb_to_yuv422_loop, if_pos hi]
      rw [ih (i + 2) (off + 4) _ k hn, hs]
      by_cases hk : dst + (off + 4) ≤ k
      · have e1 : (k - (dst + off)) / 4 = (k - (dst + (off + 4))) / 4 + 1 := by omega
        have e2 : (k - (dst + off)) % 4 = (k - (dst + (off + 4))) % 4 := by omega
        have e3 : i + 2 + 2 * ((k - (dst + (off + 4))) / 4)
            = i + 2 * ((k - (dst + (off + 4))) / 4 + 1) := by ring
        rw [e1, e2, e3]
        by_cases hlt : k < dst + (off + 4)
            + 4 * ((width - ((i + 2 : Nat) : Int) + 1) / 2).toNat
        · rw [if_pos ⟨hk, hlt⟩, if_pos ⟨by omega, by omega⟩]
        · rw [if_neg (fun h => hlt h.2), if_neg (fun h => hlt (by omega))]
          simp only [store8]
          rw [if_neg (by omega), if_neg (by omega), if_neg (by omega), if_neg (by omega)]
      · rw [if_neg (fun h => hk h.1)]
        by_cases hlo : dst + off ≤ k
        · rw [if_pos ⟨hlo, by omega⟩]
          have e1 : (k - (dst + off)) / 4 = 0 := by omega
          rw [e1]
          have hc : k = dst + off ∨ k = dst + (off + 1) ∨ k = dst + (off + 2)
              ∨ k = dst + (off + 3) := by omega
          rcases hc with hc | hc | hc | hc
          · have e2 : (k - (dst + off)) % 4 = 0 := by omega
            rw [e2]; subst hc
            simp [store8, macropixel_byte]
          · have e2 : (k - (dst + off)) % 4 = 1 := by omega
            rw [e2]; subst hc
            simp [store8, macropixel_byte]
          · have e2 : (k - (dst + off)) % 4 = 2 := by omega
            rw [e2]; subst hc
            simp [store8, macropixel_byte]
          · have e2 : (k - (dst + off)) % 4 = 3 := by omega
            rw [e2]; subst hc
            simp [store8, macropixel_byte]
        · rw [if_neg (fun h => hlo h.1)]
          simp only [store8]
          rw [if_neg (by omega), if_neg (by omega), if_neg (by omega), if_neg (by omega)]
    · have h0 : ((width - i + 1) / 2).toNat = 0 := by omega
      simp only [xrgb_to_yuv422_loop, if_neg hi, h0]
      rw [if_neg (by omega)]

/-- The memory after `ms912x_xrgb_to_yuv422_avx2(dst, src, width)`: the
`4 * ceil(width / 2)` bytes from `dst` on hold the macro-pixel row, every
other byte is as before. -/
theorem ms912x_xrgb_to_yuv422_avx2_apply (m : Mem) (dst : Nat) (src : Nat → Nat)
    (width : Int) (k : Nat) :
    ms912x_xrgb_to_yuv422_avx2 m dst src width k =
      if dst ≤ k ∧ k < dst + 4 * ((width + 1) / 2).toNat then yuv422_row_byte src (k - dst)
      else m k := by
  unfold ms912x_xrgb_to_yuv422_avx2
  rw [xrgb_to_yuv422_loop_apply dst src width width.toNat 0 0 m k (by push_cast; omega)]
  simp only [Nat.add_zero, Nat.cast_zero, sub_zero, Nat.zero_add, yuv422_row_byte]

/-! ### The row loop of the encoder -/

theorem yuv422_row_byte_congr (src src' : Nat → Nat) (n k : Nat) (hn : n % 2 = 0)
    (h : ∀ c, c < n → src c = src' c) (hk : k < 2 * n) :
    yuv422_row_byte src k = yuv422_row_byte src' k := by
  unfold yuv422_row_byte
  rw [h (2 * (k / 4)) (by omega), h (2 * (k / 4) + 1) (by omega)]

theorem u32_view_memcpy_from (temp vaddr : Mem) (offset len c : Nat) (hc : 4 * c + 3 < len) :
    u32_view (iosys_map_memcpy_from temp vaddr offset len) 0 c = u32_view vaddr offset c := by
  simp only [u32_view, load_le32, iosys_map_memcpy_from]
  rw [if_pos (by omega), if_pos (by omega), if_pos (by omega), if_pos (by omega)]
  simp only [Nat.zero_add, Nat.add_assoc]

theorem first_pass_outside (b : Bool) (m : Mem) (dst : Nat) (srcv : Nat → Nat) (width : Int)
    (k : Nat) (hk : ¬(dst ≤ k ∧ k < dst + 4 * ((width + 1) / 2).toNat)) :
    (if (!b) = true then ms912x_xrgb_to_yuv422_avx2 m dst srcv width else m) k = m k := by
  cases b
  · simp only [Bool.not_false, if_true]
    rw [ms912x_xrgb_to_yuv422_avx2_apply, if_neg hk]
  · simp

theorem yuv422_rows_apply (src : iosys_map) (fb : drm_framebuffer) (x width y2 : Int)
    (hw0 : 0 ≤ width) (hw2 : width % 2 = 0) (hw4 : width * 4 < 2147483648) :
    ∀ (fuel : Nat) (i : Int) (fb_map dst : Nat) (temp m : Mem),
      (y2 - i).toNat ≤ fuel →
      (yuv422_rows src fb x width y2 fuel i fb_map dst temp m).1
          = dst + (y2 - i).toNat * (width * 2).toNat ∧
      ∀ k, (yuv422_rows src fb x width y2 fuel i fb_map dst temp m).2 k =
        if dst ≤ k ∧ k < dst + (y2 - i).toNat * (width * 2).toNat then
          yuv422_row_byte
            (u32_view src.vaddr
              (fb_map + (k - dst) / (width * 2).toNat * fb.pitch + size_of_int (int_wrap (x * 4))))
            ((k - dst) % (width * 2).toNat)
        else m k := by
  have eL : size_of_int (int_wrap (width * 4)) = (width * 4).toNat := by
    unfold size_of_int int_wrap; omega
  have eS : ∀ d : Nat, ((d : Int) + int_wrap (width * 2)).toNat = d + (width * 2).toNat := by
    intro d; unfold int_wrap; omega
  intro fuel
  induction fuel with
  | zero =>
    intro i fb_map dst temp m h
    have h0 : (y2 - i).toNat = 0 := by omega
    simp only [yuv422_rows, h0, Nat.zero_mul, Nat.add_zero]
    refine ⟨trivial, fun k => ?_⟩
    rw [if_neg (by omega)]
  | succ fuel ih =>
    intro i fb_map dst temp m h
    by_cases hi : i < y2
    · have hs : (y2 - i).toNat = (y2 - (i + 1)).toNat + 1 := by omega
      have hf : (y2 - (i + 1)).toNat ≤ fuel := by omega
      have hW : 4 * ((width + 1) / 2).toNat = (width * 2).toNat := by omega
      simp only [yuv422_rows, if_pos hi, eL, eS]
      obtain ⟨ih1, ih2⟩ := ih (i + 1) (fb_map + fb.pitch) (dst + (width * 2).toNat)
        (iosys_map_memcpy_from temp src.vaddr (fb_map + size_of_int (int_wrap (x * 4))) (width * 4).toNat)
        (ms912x_xrgb_to_yuv422_avx2
          (if (!src.is_iomem) = true then
            ms912x_xrgb_to_yuv422_avx2 m dst (u32_view src.vaddr fb_map) width
          else m) dst
          (u32_view
            (iosys_map_memcpy_from temp src.vaddr (fb_map + size_of_int (int_wrap (x * 4))) (width * 4).toNat)
            0) width) hf
      rw [hs, Nat.succ_mul]
      refine ⟨by rw [ih1]; omega, fun k => ?_⟩
      rw [ih2 k]
      by_cases hk : dst + (width * 2).toNat ≤ k
      · have hout : ¬(dst ≤ k ∧ k < dst + 4 * ((width + 1) / 2).toNat) := by omega
        by_cases hlt : k < dst + (width * 2).toNat + (y2 - (i + 1)).toNat * (width * 2).toNat
        · have hWpos : 0 < (width * 2).toNat := by
            rcases Nat.eq_zero_or_pos (width * 2).toNat with h0 | h0
            · rw [h0, Nat.mul_zero] at hlt; omega
            · exact h0
          have hc : dst ≤ k ∧ k < dst
              + ((y2 - (i + 1)).toNat * (width * 2).toNat + (width * 2).toNat) := by omega
          rw [if_pos ⟨hk, hlt⟩, if_pos hc]
          have e : k - dst = (k - (dst + (width * 2).toNat)) + (width * 2).toNat := by omega
          rw [e, Nat.add_div_right _ hWpos, Nat.add_mod_right]
          have e2 : fb_map + fb.pitch + (k - (dst + (width * 2).toNat)) / (width * 2).toNat
                * fb.pitch
              = fb_map + ((k - (dst + (width * 2).toNat)) / (width * 2).toNat).succ
                * fb.pitch := by
            rw [Nat.succ_mul]; omega
          rw [e2]
        · have hc : ¬(dst ≤ k ∧ k < dst
              + ((y2 - (i + 1)).toNat * (width * 2).toNat + (width * 2).toNat)) := by omega
          rw [if_neg (fun h => hlt h.2), if_neg hc]
          rw [ms912x_xrgb_to_yuv422_avx2_apply, if_neg hout]
          exact first_pass_outside _ _ _ _ _ _ hout
      · rw [if_neg (fun h => hk h.1)]
        rw [ms912x_xrgb_to_yuv422_avx2_apply, hW]
        by_cases hlo : dst ≤ k
        · have hkW : k - dst < (width * 2).toNat := by omega
          have hc : dst ≤ k ∧ k < dst
              + ((y2 - (i + 1)).toNat * (width * 2).toNat + (width * 2).toNat) := by omega
          have hc2 : dst ≤ k ∧ k < dst + (width * 2).toNat := by omega
          rw [if_pos hc2, if_pos hc]
          rw [Nat.div_eq_of_lt hkW, Nat.mod_eq_of_lt hkW, Nat.zero_mul, Nat.add_zero]
          apply yuv422_row_byte_congr _ _ width.toNat (k - dst) (by omega) _ (by omega)
          intro c hc
          exact u32_view_memcpy_from _ _ _ _ c (by omega)
        · have hc1 : ¬(dst ≤ k ∧ k < dst + (width * 2).toNat) := fun h => hlo h.1
          have hc2 : ¬(dst ≤ k ∧ k < dst
              + ((y2 - (i + 1)).toNat * (width * 2).toNat + (width * 2).toNat)) :=
            fun h => hlo h.1
          rw [if_neg hc1, if_neg hc2]
          exact first_pass_outside _ _ _ _ _ _ (fun h => hlo h.1)
    · have h0 : (y2 - i).toNat = 0 := by omega
      simp only [yuv422_rows, if_neg hi, h0, Nat.zero_mul, Nat.add_zero]
      refine ⟨trivial, fun k => ?_⟩
      rw [if_neg (by omega)]

/-! ### The encoder, byte by byte -/

theorem clamp_y2 (y2 : Int) (h : Nat) (h0 : 0 ≤ y2) (h1 : y2 < 2147483648) :
    int_of_u32 (min (u32_of_int y2) h) = min y2 (h : Int) := by
  unfold int_of_u32 u32_of_int
  split <;> omega

theorem header_length (a b c d e : Int) : (ms912x_frame_update_header a b c d e).length = 8 := by
  simp [ms912x_frame_update_header, cpu_to_be16]

/-- The destination memory after a successful call of the encoder, for a
rectangle with `0 ≤ y2` and an even, non-negative width: header, rows,
end-of-buffer marker, and nothing else touched. -/
theorem ms912x_fb_xrgb8888_to_yuv422_apply (dst : Mem) (src : iosys_map) (fb : drm_framebuffer)
    (rect : drm_rect) (temp : Mem)
    (hw0 : 0 ≤ drm_rect_width rect) (hw2 : drm_rect_width rect % 2 = 0)
    (hw4 : drm_rect_width rect * 4 < 2147483648)
    (hy0 : 0 ≤ rect.y2) (hy1 : rect.y2 < 2147483648) :
    (ms912x_fb_xrgb8888_to_yuv422 dst src fb rect (some temp)).ret = 0 ∧
    (ms912x_fb_xrgb8888_to_yuv422 dst src fb rect (some temp)).tail
      = 8 + (min rect.y2 fb.height - rect.y1).toNat * (drm_rect_width rect * 2).toNat + 8 ∧
    ∀ k, (ms912x_fb_xrgb8888_to_yuv422 dst src fb rect (some temp)).buf k =
      if k < 8 then
        (ms912x_frame_update_header 0xff00 (rect.x1.tdiv 16) rect.y1
          ((drm_rect_width rect).tdiv 16) (drm_rect_height rect)).getD k 0 % 256
      else if k < 8 + (min rect.y2 fb.height - rect.y1).toNat
          * (drm_rect_width rect * 2).toNat then
        yuv422_row_byte
          (u32_view src.vaddr
            (u32_of_int (rect.y1 * fb.pitch)
              + (k - 8) / (drm_rect_width rect * 2).toNat * fb.pitch
              + size_of_int (int_wrap (rect.x1 * 4))))
          ((k - 8) % (drm_rect_width rect * 2).toNat)
      else if k < 8 + (min rect.y2 fb.height - rect.y1).toNat
          * (drm_rect_width rect * 2).toNat + 8 then
        ms912x_end_of_buffer.getD
          (k - (8 + (min rect.y2 fb.height - rect.y1).toNat
            * (drm_rect_width rect * 2).toNat)) 0 % 256
      else dst k := by
  have hc := clamp_y2 rect.y2 fb.height hy0 hy1
  obtain ⟨r1, r2⟩ := yuv422_rows_apply src fb rect.x1 (drm_rect_width rect)
    (min rect.y2 (fb.height : Int)) hw0 hw2 hw4
    (min rect.y2 (fb.height : Int) - rect.y1).toNat rect.y1 (u32_of_int (rect.y1 * fb.pitch))
    8 temp
    (store_bytes dst 0
      (ms912x_frame_update_header 0xff00 (rect.x1.tdiv 16) rect.y1
        ((drm_rect_width rect).tdiv 16) (drm_rect_height rect))) (le_refl _)
  simp only [ms912x_fb_xrgb8888_to_yuv422, hc]
  refine ⟨trivial, by rw [r1], fun k => ?_⟩
  have hlen : ms912x_end_of_buffer.length = 8 := rfl
  simp only [store_bytes, r1, r2, header_length, hlen]
  by_cases h1 : k < 8
  · rw [if_pos h1, if_neg (by omega), if_neg (by omega), if_pos (by omega), Nat.sub_zero]
  · rw [if_neg h1]
    by_cases h2 : k < 8 + (min rect.y2 fb.height - rect.y1).toNat
        * (drm_rect_width rect * 2).toNat
    · rw [if_pos h2, if_neg (by omega), if_pos (by omega)]
    · rw [if_neg h2]
      by_cases h3 : k < 8 + (min rect.y2 fb.height - rect.y1).toNat
          * (drm_rect_width rect * 2).toNat + 8
      · rw [if_pos h3, if_pos (by omega)]
      · rw [if_neg h3, if_neg (by omega), if_neg (by omega), if_neg (by omega)]

/-! ### The scheduler -/

theorem fin2_one_sub_ne (c : Fin 2) : 1 - c ≠ c := by
  revert c; decide

theorem fin2_cases (c i : Fin 2) : i = c ∨ i = 1 - c := by
  revert c i; decide

theorem encoder_ret_some (dst : Mem) (src : iosys_map) (fb : drm_framebuffer)
    (rect : drm_rect) (temp : Mem) :
    (ms912x_fb_xrgb8888_to_yuv422 dst src fb rect (some temp)).ret = 0 := rfl

theorem encoder_ret_none (dst : Mem) (src : iosys_map) (fb : drm_framebuffer)
    (rect : drm_rect) :
    (ms912x_fb_xrgb8888_to_yuv422 dst src fb rect none).ret = -ENOMEM ∧
    (ms912x_fb_xrgb8888_to_yuv422 dst src fb rect none).buf = dst ∧
    (ms912x_fb_xrgb8888_to_yuv422 dst src fb rect none).tail = 0 := ⟨rfl, rfl, rfl⟩

/-- A call that does not reach `queue_work` (CPU access refused, allocation
failed, or no completion signalled for the previous request) returns a
negative value and leaves `current_request` and, for both requests, `done`,
the queued flag, `transfer_len` and `alloc_len` as they were; the buffer of
the previous request is untouched. -/
theorem send_rect_not_queued (d : ms912x_device) (fb : drm_framebuffer) (map : iosys_map)
    (rect : drm_rect) (cpu_access : Int) (temp_buffer : Option Mem)
    (h : cpu_access < 0 ∨ temp_buffer = none ∨ (d.requests (1 - d.current_request)).done = 0) :
    (ms912x_fb_send_rect d fb map rect cpu_access temp_buffer).ret < 0 ∧
    (ms912x_fb_send_rect d fb map rect cpu_access temp_buffer).dev.current_request
      = d.current_request ∧
    ∀ i,
      ((ms912x_fb_send_rect d fb map rect cpu_access temp_buffer).dev.requests i).done
        = (d.requests i).done ∧
      ((ms912x_fb_send_rect d fb map rect cpu_access temp_buffer).dev.requests i).work_queued
        = (d.requests i).work_queued ∧
      ((ms912x_fb_send_rect d fb map rect cpu_access temp_buffer).dev.requests i).transfer_len
        = (d.requests i).transfer_len ∧
      ((ms912x_fb_send_rect d fb map rect cpu_access temp_buffer).dev.requests i).alloc_len
        = (d.requests i).alloc_len ∧
      (i ≠ d.current_request →
        ((ms912x_fb_send_rect d fb map rect cpu_access temp_buffer).dev.requests i).transfer_buffer
          = (d.requests i).transfer_buffer) := by
  have hne := fin2_one_sub_ne d.current_request
  by_cases hcpu : cpu_access < 0
  · simp only [ms912x_fb_send_rect, if_pos hcpu]
    simp [hcpu]
  · cases temp_buffer with
    | none =>
      have hr : (-ENOMEM : Int) < 0 := by decide
      simp only [ms912x_fb_send_rect, if_neg hcpu, (encoder_ret_none _ _ _ _).1, if_pos hr]
      refine ⟨hr, trivial, fun i => ?_⟩
      by_cases hi : i = d.current_request
      · subst hi; simp
      · simp [Function.update_noteq hi]
    | some temp =>
      have hd : (d.requests (1 - d.current_request)).done = 0 := by
        rcases h with h | h | h
        · exact absurd h hcpu
        · cases h
        · exact h
      have hr : ¬ ((0 : Int) < 0) := by decide
      simp only [ms912x_fb_send_rect, if_neg hcpu, encoder_ret_some, if_neg hr,
        Function.update_noteq hne, hd, if_true]
      refine ⟨by decide, trivial, fun i => ?_⟩
      by_cases hi : i = d.current_request
      · subst hi; simp
      · simp [Function.update_noteq hi]

/-- A call that reaches `queue_work` returns 0, consumes one completion
signal of the previous request, records `transfer_len` on the current
request, queues its work item and flips `current_request`. -/
theorem send_rect_queued (d : ms912x_device) (fb : drm_framebuffer) (map : iosys_map)
    (rect : drm_rect) (cpu_access : Int) (temp : Mem)
    (hcpu : 0 ≤ cpu_access) (hd : (d.requests (1 - d.current_request)).done ≠ 0) :
    (ms912x_fb_send_rect d fb map rect cpu_access (some temp)).ret = 0 ∧
    (ms912x_fb_send_rect d fb map rect cpu_access (some temp)).dev.current_request
      = 1 - d.current_request ∧
    ((ms912x_fb_send_rect d fb map rect cpu_access (some temp)).dev.requests
        d.current_request).work_queued = true ∧
    ((ms912x_fb_send_rect d fb map rect cpu_access (some temp)).dev.requests
        d.current_request).done = (d.requests d.current_request).done ∧
    ((ms912x_fb_send_rect d fb map rect cpu_access (some temp)).dev.requests
        d.current_request).transfer_len
      = int_wrap
          (send_rect_width fb rect * 2 * drm_rect_height (send_rect_align fb rect) + 16) ∧
    ((ms912x_fb_send_rect d fb map rect cpu_access (some temp)).dev.requests
        (1 - d.current_request)).work_queued
      = (d.requests (1 - d.current_request)).work_queued ∧
    ((ms912x_fb_send_rect d fb map rect cpu_access (some temp)).dev.requests
        (1 - d.current_request)).done = (d.requests (1 - d.current_request)).done - 1 := by
  have hne := fin2_one_sub_ne d.current_request
  have hcpu' : ¬ cpu_access < 0 := by omega
  have hr : ¬ ((0 : Int) < 0) := by decide
  simp only [ms912x_fb_send_rect, if_neg hcpu', encoder_ret_some, if_neg hr,
    Function.update_noteq hne, if_neg hd]
  simp [Function.update_noteq hne, Function.update_noteq hne.symm]

theorem sched_inv_of_init (d : ms912x_device) (h : sched_init d) : sched_inv d := by
  obtain ⟨hq, hd⟩ := h
  refine ⟨?_, hq _⟩
  simp only [slot_tokens, hq 0, hq 1]
  simpa using hd

theorem slot_tokens_eq (r r' : ms912x_usb_request) (h1 : r'.done = r.done)
    (h2 : r'.work_queued = r.work_queued) : slot_tokens r' = slot_tokens r := by
  simp only [slot_tokens, h1, h2]

theorem tokens_sum (d : ms912x_device) :
    slot_tokens (d.requests 0) + slot_tokens (d.requests 1)
      = slot_tokens (d.requests d.current_request)
        + slot_tokens (d.requests (1 - d.current_request)) := by
  rcases fin2_cases 0 d.current_request with h | h
  · rw [h]; rfl
  · rw [h]; exact Nat.add_comm _ _

theorem sched_inv_send_rect (d : ms912x_device) (fb : drm_framebuffer) (map : iosys_map)
    (rect : drm_rect) (cpu_access : Int) (temp_buffer : Option Mem) (h : sched_inv d) :
    sched_inv (ms912x_fb_send_rect d fb map rect cpu_access temp_buffer).dev := by
  by_cases hq : cpu_access < 0 ∨ temp_buffer = none
      ∨ (d.requests (1 - d.current_request)).done = 0
  · obtain ⟨-, hc, hf⟩ := send_rect_not_queued d fb map rect cpu_access temp_buffer hq
    unfold sched_inv
    rw [hc, slot_tokens_eq _ _ (hf 0).1 (hf 0).2.1, slot_tokens_eq _ _ (hf 1).1 (hf 1).2.1,
      (hf d.current_request).2.1]
    exact h
  · have hcpu : 0 ≤ cpu_access := by
      by_contra hc; exact hq (Or.inl (by omega))
    have hd : (d.requests (1 - d.current_request)).done ≠ 0 :=
      fun hc => hq (Or.inr (Or.inr hc))
    cases temp_buffer with
    | none => exact absurd (Or.inr (Or.inl rfl)) hq
    | some temp =>
      obtain ⟨-, hc, q1, d1, -, q2, d2⟩ := send_rect_queued d fb map rect cpu_access temp hcpu hd
      obtain ⟨ht, hcur⟩ := h
      rw [tokens_sum] at ht
      simp only [slot_tokens, hcur] at ht
      have hflip : 1 - (1 - d.current_request) = d.current_request := by
        generalize d.current_request = c; revert c; decide
      refine ⟨?_, ?_⟩
      · rw [tokens_sum, hc, hflip]
        simp only [slot_tokens, q1, d1, q2, d2]
        split at ht <;> simp at ht ⊢ <;> omega
      · rw [hc, q2]
        by_contra hne
        simp only [Bool.not_eq_false] at hne
        simp only [hne, if_true] at ht
        omega

theorem sched_inv_request_work (d : ms912x_device) (i : Fin 2) (h : sched_inv d)
    (hq : (d.requests i).work_queued = true) : sched_inv (ms912x_request_work d i) := by
  obtain ⟨ht, hcur⟩ := h
  have hi : i = 1 - d.current_request := by
    rcases fin2_cases d.current_request i with hi | hi
    · rw [hi, hcur] at hq; cases hq
    · exact hi
  have hne := fin2_one_sub_ne d.current_request
  rw [tokens_sum] at ht
  subst hi
  simp only [slot_tokens, hcur, hq, if_true] at ht
  refine ⟨?_, ?_⟩
  · rw [tokens_sum]
    simp only [ms912x_request_work, slot_tokens, Function.update_same,
      Function.update_noteq hne.symm, hcur]
    simp
    omega
  · simp only [ms912x_request_work, Function.update_noteq hne.symm, hcur]

theorem sched_inv_step (d d' : ms912x_device) (h : sched_inv d) (hs : sched_step d d') :
    sched_inv d' := by
  cases hs with
  | send_rect fb map rect cpu_access temp_buffer =>
    exact sched_inv_send_rect d fb map rect cpu_access temp_buffer h
  | request_work i hq => exact sched_inv_request_work d i h hq

theorem sched_inv_reachable (d0 d : ms912x_device) (h0 : sched_init d0)
    (hr : sched_reachable d0 d) : sched_inv d := by
  induction hr with
  | refl => exact sched_inv_of_init d0 h0
  | tail _ hs ih => exact sched_inv_step _ _ ih hs

theorem send_rect_ret_timedout (d : ms912x_device) (fb : drm_framebuffer) (map : iosys_map)
    (rect : drm_rect) (cpu_access : Int) (temp : Mem) (hcpu : 0 ≤ cpu_access)
    (hd : (d.requests (1 - d.current_request)).done = 0) :
    (ms912x_fb_send_rect d fb map rect cpu_access (some temp)).ret = -ETIMEDOUT := by
  have hne := fin2_one_sub_ne d.current_request
  have hcpu' : ¬ cpu_access < 0 := by omega
  have hr : ¬ ((0 : Int) < 0) := by decide
  simp only [ms912x_fb_send_rect, if_neg hcpu', encoder_ret_some, if_neg hr,
    Function.update_noteq hne, hd, if_true]

theorem send_rect_ret_enomem (d : ms912x_device) (fb : drm_framebuffer) (map : iosys_map)
    (rect : drm_rect) (cpu_access : Int) (hcpu : 0 ≤ cpu_access) :
    (ms912x_fb_send_rect d fb map rect cpu_access none).ret = -ENOMEM := by
  have hcpu' : ¬ cpu_access < 0 := by omega
  have hr : (-ENOMEM : Int) < 0 := by decide
  simp only [ms912x_fb_send_rect, if_neg hcpu', (encoder_ret_none _ _ _ _).1, if_pos hr]

theorem sched_state_not_queued (d : ms912x_device) (fb : drm_framebuffer) (map : iosys_map)
    (rect : drm_rect) (cpu_access : Int) (temp_buffer : Option Mem)
    (h : cpu_access < 0 ∨ temp_buffer = none ∨ (d.requests (1 - d.current_request)).done = 0) :
    sched_state (ms912x_fb_send_rect d fb map rect cpu_access temp_buffer).dev
      = sched_state d := by
  obtain ⟨-, hc, hf⟩ := send_rect_not_queued d fb map rect cpu_access temp_buffer h
  unfold sched_state
  rw [hc]
  congr 2
  · funext i; exact (hf i).2.1
  · funext i; exact (hf i).1

theorem dev_primed_init : sched_init dev_primed :=
  ⟨by decide, by decide⟩

theorem dev_busy_reachable : sched_reachable dev_primed dev_busy :=
  Relation.ReflTransGen.single
    (sched_step.send_rect dev_primed fb_1366 map_black rect_scenario 0 (some zero_mem))

theorem dev_busy_fields :
    dev_busy.current_request = 1 ∧ (dev_busy.requests 0).work_queued = true ∧
    (dev_busy.requests 0).done = 0 ∧ (dev_busy.requests 1).work_queued = false ∧
    (dev_busy.requests 1).done = 0 := by
  obtain ⟨-, hc, q1, d1, -, q2, d2⟩ := send_rect_queued dev_primed fb_1366 map_black
    rect_scenario 0 zero_mem (by decide) (by decide)
  exact ⟨hc, q1, d1, q2, d2⟩

/-- Whatever its outcome, `ms912x_fb_send_rect` leaves the buffer, the
capacity and the recorded length of the request other than the current one
untouched. -/
theorem send_rect_other_request (d : ms912x_device) (fb : drm_framebuffer) (map : iosys_map)
    (rect : drm_rect) (cpu_access : Int) (temp_buffer : Option Mem) (i : Fin 2)
    (hi : i ≠ d.current_request) :
    ((ms912x_fb_send_rect d fb map rect cpu_access temp_buffer).dev.requests i).transfer_buffer
      = (d.requests i).transfer_buffer ∧
    ((ms912x_fb_send_rect d fb map rect cpu_access temp_buffer).dev.requests i).alloc_len
      = (d.requests i).alloc_len ∧
    ((ms912x_fb_send_rect d fb map rect cpu_access temp_buffer).dev.requests i).transfer_len
      = (d.requests i).transfer_len := by
  have hp : i = 1 - d.current_request := by
    rcases fin2_cases d.current_request i with h | h
    · exact absurd h hi
    · exact h
  simp only [ms912x_fb_send_rect]
  split
  · exact ⟨rfl, rfl, rfl⟩
  · split
    · simp [Function.update_noteq hi]
    · split
      · simp [Function.update_noteq hi]
      · subst hp
        simp [Function.update_noteq hi]

/-! ### C2: dropping a frame -/

/-- C2. Drop correctness: when `ms912x_fb_send_rect` reaches the zero-timeout
poll (CPU access granted, scratch row allocated) and the previous request has
no completion signalled, it returns `-ETIMEDOUT`, `current_request` is
unchanged, no work item is queued for either request (the queued flags are as
before), no completion signal is consumed, and `transfer_len` of the current
request (indeed of both) is unchanged. -/
theorem send_rect_drop (d : ms912x_device) (fb : drm_framebuffer) (map : iosys_map)
    (rect : drm_rect) (cpu_access : Int) (temp : Mem) (hcpu : 0 ≤ cpu_access)
    (hd : (d.requests (1 - d.current_request)).done = 0) :
    (ms912x_fb_send_rect d fb map rect cpu_access (some temp)).ret = -ETIMEDOUT ∧
    (ms912x_fb_send_rect d fb map rect cpu_access (some temp)).dev.current_request
      = d.current_request ∧
    (∀ i, ((ms912x_fb_send_rect d fb map rect cpu_access (some temp)).dev.requests i).work_queued
        = (d.requests i).work_queued) ∧
    (∀ i, ((ms912x_fb_send_rect d fb map rect cpu_access (some temp)).dev.requests i).done
        = (d.requests i).done) ∧
    ((ms912x_fb_send_rect d fb map rect cpu_access (some temp)).dev.requests
        d.current_request).transfer_len = (d.requests d.current_request).transfer_len ∧
    ((ms912x_fb_send_rect d fb map rect cpu_access (some temp)).dev.requests
        (1 - d.current_request)).transfer_len
      = (d.requests (1 - d.current_request)).transfer_len := by
  obtain ⟨-, hc, hf⟩ :=
    send_rect_not_queued d fb map rect cpu_access (some temp) (Or.inr (Or.inr hd))
  exact ⟨send_rect_ret_timedout d fb map rect cpu_access temp hcpu hd, hc,
    fun i => (hf i).2.1, fun i => (hf i).1, (hf _).2.2.1, (hf _).2.2.1⟩

/-- Witness for C2: a frame sent while request 0 is still in flight is
dropped. -/
theorem send_rect_drop_witness :
    (0 : Int) ≤ 0 ∧ (dev_busy.requests (1 - dev_busy.current_request)).done = 0 ∧
    (ms912x_fb_send_rect dev_busy fb_1366 map_black rect_scenario 0 (some zero_mem)).ret
      = -ETIMEDOUT ∧
    (ms912x_fb_send_rect dev_busy fb_1366 map_black rect_scenario 0
      (some zero_mem)).dev.current_request = dev_busy.current_request :=
  have h : (dev_busy.requests (1 - dev_busy.current_request)).done = 0 := by
    rw [dev_busy_fields.1]; exact dev_busy_fields.2.2.1
  ⟨le_refl _, h,
    (send_rect_drop dev_busy fb_1366 map_black rect_scenario 0 zero_mem (le_refl _) h).1,
    (send_rect_drop dev_busy fb_1366 map_black rect_scenario 0 zero_mem (le_refl _) h).2.1⟩

/-! ### C3, C4: the scheduler invariants -/

/-- C3. Scheduler mutual exclusion: from an initial state with no work item
queued and at most one pending completion signal, in every state reachable by
calls of `ms912x_fb_send_rect` and worker completions at most one of the two
requests is Submitted (work item queued, worker not yet finished). -/
theorem sched_mutual_exclusion (d0 d : ms912x_device) (h0 : sched_init d0)
    (hr : sched_reachable d0 d) :
    ¬((d.requests 0).work_queued = true ∧ (d.requests 1).work_queued = true) := by
  obtain ⟨ht, -⟩ := sched_inv_reachable d0 d h0 hr
  rintro ⟨q0, q1⟩
  simp only [slot_tokens, q0, q1, if_true] at ht
  omega

/-- Witness for C3: after one accepted frame, request 0 is in flight and
request 1 is not. -/
theorem sched_mutual_exclusion_witness :
    sched_init dev_primed ∧ sched_reachable dev_primed dev_busy ∧
    (dev_busy.requests 0).work_queued = true ∧
    ¬((dev_busy.requests 0).work_queued = true ∧ (dev_busy.requests 1).work_queued = true) :=
  ⟨dev_primed_init, dev_busy_reachable, dev_busy_fields.2.1,
    sched_mutual_exclusion dev_primed dev_busy dev_primed_init dev_busy_reachable⟩

/-- C4. The encoder writes only into an idle buffer: in every reachable state
the request at `current_request`, the one `ms912x_fb_send_rect` encodes into,
is not Submitted; a Submitted request is always the previous one; and no call
of `ms912x_fb_send_rect` from that state changes the buffer of a Submitted
request. -/
theorem current_request_not_submitted (d0 d : ms912x_device) (h0 : sched_init d0)
    (hr : sched_reachable d0 d) :
    (d.requests d.current_request).work_queued = false ∧
    (∀ i, (d.requests i).work_queued = true → i = 1 - d.current_request) ∧
    ∀ (fb : drm_framebuffer) (map : iosys_map) (rect : drm_rect) (cpu_access : Int)
      (temp_buffer : Option Mem) (i : Fin 2), (d.requests i).work_queued = true →
      ((ms912x_fb_send_rect d fb map rect cpu_access temp_buffer).dev.requests i).transfer_buffer
        = (d.requests i).transfer_buffer := by
  obtain ⟨-, hcur⟩ := sched_inv_reachable d0 d h0 hr
  refine ⟨hcur, fun i hq => ?_, fun fb map rect cpu_access temp_buffer i hq => ?_⟩
  · rcases fin2_cases d.current_request i with hi | hi
    · rw [hi, hcur] at hq; cases hq
    · exact hi
  · have hi : i ≠ d.current_request := by
      intro hi; rw [hi, hcur] at hq; cases hq
    exact (send_rect_other_request d fb map rect cpu_access temp_buffer i hi).1

/-- Witness for C4: after one accepted frame the current request is request 1,
which is idle, and the request in flight is the previous one. -/
theorem current_request_not_submitted_witness :
    sched_init dev_primed ∧ sched_reachable dev_primed dev_busy ∧
    (dev_busy.requests 0).work_queued = true ∧
    (dev_busy.requests dev_busy.current_request).work_queued = false ∧
    ∀ i, (dev_busy.requests i).work_queued = true → i = 1 - dev_busy.current_request :=
  ⟨dev_primed_init, dev_busy_reachable, dev_busy_fields.2.1,
    (current_request_not_submitted dev_primed dev_busy dev_primed_init dev_busy_reachable).1,
    (current_request_not_submitted dev_primed dev_busy dev_primed_init dev_busy_reachable).2.1⟩

/-! ### C5: a stuck pipe -/

theorem send_rect_seq_stuck (calls : List send_rect_call) :
    ∀ d : ms912x_device, (d.requests (1 - d.current_request)).done = 0 →
      sched_state (send_rect_seq d calls).1 = sched_state d ∧
      List.Forall₂
        (fun (c : send_rect_call) (ret : Int) =>
          ret < 0 ∧ (0 ≤ c.cpu_access → c.temp_buffer ≠ none → ret = -ETIMEDOUT))
        calls (send_rect_seq d calls).2 := by
  induction calls with
  | nil => intro d _; exact ⟨rfl, List.Forall₂.nil⟩
  | cons c cs ih =>
    intro d hd
    have hq : c.cpu_access < 0 ∨ c.temp_buffer = none
        ∨ (d.requests (1 - d.current_request)).done = 0 := Or.inr (Or.inr hd)
    have hst := sched_state_not_queued d c.fb c.map c.rect c.cpu_access c.temp_buffer hq
    obtain ⟨hneg, hc, hf⟩ := send_rect_not_queued d c.fb c.map c.rect c.cpu_access
      c.temp_buffer hq
    have hd' : ((ms912x_fb_send_rect d c.fb c.map c.rect c.cpu_access c.temp_buffer).dev.requests
        (1 - (ms912x_fb_send_rect d c.fb c.map c.rect c.cpu_access
          c.temp_buffer).dev.current_request)).done = 0 := by
      rw [hc, (hf _).1]; exact hd
    obtain ⟨ih1, ih2⟩ := ih _ hd'
    simp only [send_rect_seq]
    refine ⟨by rw [ih1, hst], List.Forall₂.cons ⟨hneg, fun hcpu htemp => ?_⟩ ih2⟩
    cases ht : c.temp_buffer with
    | none => exact absurd ht htemp
    | some temp => exact send_rect_ret_timedout d c.fb c.map c.rect c.cpu_access temp hcpu hd

/-- C5, as the code has it. From any reachable state in which a request is
Submitted, over every finite sequence of `ms912x_fb_send_rect` calls with no
worker completion in between, no call is accepted (every return value is
negative), every call whose encoding succeeds (CPU access granted, scratch
row allocated) returns `-ETIMEDOUT`, and the scheduling state
(`current_request`, queued work items, pending signals) after the sequence
equals the state before it. -/
theorem stuck_pipe_drops (d0 d : ms912x_device) (h0 : sched_init d0)
    (hr : sched_reachable d0 d) (i : Fin 2) (hq : (d.requests i).work_queued = true)
    (calls : List send_rect_call) :
    sched_state (send_rect_seq d calls).1 = sched_state d ∧
    List.Forall₂
      (fun (c : send_rect_call) (ret : Int) =>
        ret < 0 ∧ (0 ≤ c.cpu_access → c.temp_buffer ≠ none → ret = -ETIMEDOUT))
      calls (send_rect_seq d calls).2 := by
  obtain ⟨ht, hcur⟩ := sched_inv_reachable d0 d h0 hr
  have hi : i = 1 - d.current_request := by
    rcases fin2_cases d.current_request i with hi | hi
    · rw [hi, hcur] at hq; cases hq
    · exact hi
  subst hi
  rw [tokens_sum] at ht
  simp only [slot_tokens, hq, if_true] at ht
  exact send_rect_seq_stuck calls d (by omega)

/-- Witness for C5: with request 0 in flight, a call that encodes and a call
whose allocation fails both leave the scheduling state alone. -/
theorem stuck_pipe_drops_witness :
    sched_init dev_primed ∧ sched_reachable dev_primed dev_busy ∧
    (dev_busy.requests 0).work_queued = true ∧
    sched_state (send_rect_seq dev_busy [call_ok, call_nomem]).1 = sched_state dev_busy ∧
    List.Forall₂
      (fun (c : send_rect_call) (ret : Int) =>
        ret < 0 ∧ (0 ≤ c.cpu_access → c.temp_buffer ≠ none → ret = -ETIMEDOUT))
      [call_ok, call_nomem] (send_rect_seq dev_busy [call_ok, call_nomem]).2 :=
  ⟨dev_primed_init, dev_busy_reachable, dev_busy_fields.2.1,
    stuck_pipe_drops dev_primed dev_busy dev_primed_init dev_busy_reachable 0
      dev_busy_fields.2.1 [call_ok, call_nomem]⟩

/-- Counterexample to C5 as stated: with request 0 in flight (a reachable
state), a call of `ms912x_fb_send_rect` whose scratch allocation fails
returns `-ENOMEM`, which is not `-ETIMEDOUT`. -/
theorem stuck_pipe_not_always_dropped :
    sched_init dev_primed ∧ sched_reachable dev_primed dev_busy ∧
    (dev_busy.requests 0).work_queued = true ∧
    (ms912x_fb_send_rect dev_busy fb_1366 map_black rect_scenario 0 none).ret = -ENOMEM ∧
    (ms912x_fb_send_rect dev_busy fb_1366 map_black rect_scenario 0 none).ret ≠ -ETIMEDOUT :=
  ⟨dev_primed_init, dev_busy_reachable, dev_busy_fields.2.1,
    send_rect_ret_enomem dev_busy fb_1366 map_black rect_scenario 0 (le_refl _),
    by rw [send_rect_ret_enomem dev_busy fb_1366 map_black rect_scenario 0 (le_refl _)]; decide⟩

/-! ### The encoded frame in the request buffer -/

/-- Once CPU access is granted, the buffer of the current request after
`ms912x_fb_send_rect` is the encoder's output for the aligned rectangle,
whether or not the frame is then submitted. -/
theorem send_rect_buffer (d : ms912x_device) (fb : drm_framebuffer) (map : iosys_map)
    (rect : drm_rect) (cpu_access : Int) (temp_buffer : Option Mem) (hcpu : 0 ≤ cpu_access) :
    ((ms912x_fb_send_rect d fb map rect cpu_access temp_buffer).dev.requests
        d.current_request).transfer_buffer
      = (ms912x_fb_xrgb8888_to_yuv422 (d.requests d.current_request).transfer_buffer map fb
          (send_rect_align fb rect) temp_buffer).buf ∧
    (ms912x_fb_send_rect d fb map rect cpu_access temp_buffer).rect
      = send_rect_align fb rect := by
  have hne := fin2_one_sub_ne d.current_request
  have hcpu' : ¬ cpu_access < 0 := by omega
  simp only [ms912x_fb_send_rect, if_neg hcpu']
  split
  · simp
  · split
    · simp
    · simp [Function.update_noteq hne.symm]

theorem toNat_mul_natCast (y : Int) (p : Nat) (h : 0 ≤ y) : (y * p).toNat = y.toNat * p := by
  lift y to Nat using h
  norm_cast

/-- Row `r` of the payload: the bytes the converter produces from the pixels
of framebuffer row `y1 + r` in the columns from `x1` on; only the `width`
pixels of the rectangle are read. -/
theorem encoder_row_bytes (dst : Mem) (src : iosys_map) (fb : drm_framebuffer)
    (rect : drm_rect) (temp m0 : Mem)
    (hx1 : 0 ≤ rect.x1) (hx4 : rect.x1 * 4 < 2147483648)
    (hw0 : 0 ≤ drm_rect_width rect) (hw2 : drm_rect_width rect % 2 = 0)
    (hw4 : drm_rect_width rect * 4 < 2147483648)
    (hy1 : 0 ≤ rect.y1) (hyp : rect.y1 * fb.pitch < 4294967296)
    (hy0 : 0 ≤ rect.y2) (hy2 : rect.y2 < 2147483648)
    (r j : Nat) (hr : r < (min rect.y2 fb.height - rect.y1).toNat)
    (hj : j < (drm_rect_width rect * 2).toNat) :
    (ms912x_fb_xrgb8888_to_yuv422 dst src fb rect (some temp)).buf
        (8 + r * (drm_rect_width rect * 2).toNat + j)
      = ms912x_xrgb_to_yuv422_avx2 m0 0
          (fun c => if (c : Int) < drm_rect_width rect then
              fb_pixel src fb (rect.y1.toNat + r) (rect.x1.toNat + c) else 0)
          (drm_rect_width rect) j := by
  obtain ⟨-, -, hb⟩ :=
    ms912x_fb_xrgb8888_to_yuv422_apply dst src fb rect temp hw0 hw2 hw4 hy0 hy2
  have hWpos : 0 < (drm_rect_width rect * 2).toNat := by omega
  have hrows : (r + 1) * (drm_rect_width rect * 2).toNat
      ≤ (min rect.y2 fb.height - rect.y1).toNat * (drm_rect_width rect * 2).toNat :=
    Nat.mul_le_mul_right _ hr
  rw [Nat.succ_mul] at hrows
  rw [hb, if_neg (by omega), if_pos (by omega)]
  have e : 8 + r * (drm_rect_width rect * 2).toNat + j - 8
      = j + r * (drm_rect_width rect * 2).toNat := by omega
  rw [e, Nat.add_mul_div_right _ _ hWpos, Nat.add_mul_mod_self_right, Nat.div_eq_of_lt hj,
    Nat.mod_eq_of_lt hj, Nat.zero_add]
  rw [ms912x_xrgb_to_yuv422_avx2_apply, if_pos ⟨Nat.zero_le _, by omega⟩, Nat.sub_zero]
  apply yuv422_row_byte_congr _ _ (drm_rect_width rect).toNat j (by omega) _ (by omega)
  intro c hc
  have hc' : (c : Int) < drm_rect_width rect := by omega
  rw [if_pos hc']
  have hP : 0 ≤ rect.y1 * (fb.pitch : Int) := Int.mul_nonneg hy1 (Int.ofNat_nonneg _)
  have eY : u32_of_int (rect.y1 * fb.pitch) = rect.y1.toNat * fb.pitch := by
    rw [← toNat_mul_natCast _ _ hy1]
    unfold u32_of_int
    rw [Int.emod_eq_of_lt hP hyp]
  have eX : size_of_int (int_wrap (rect.x1 * 4)) = rect.x1.toNat * 4 := by
    rw [int_wrap_eq _ (by omega) (by omega)]
    unfold size_of_int
    omega
  simp only [u32_view, fb_pixel]
  congr 1
  rw [eY, eX, Nat.add_mul]
  omega

/-- The end-of-buffer marker follows the last row. -/
theorem encoder_marker_bytes (dst : Mem) (src : iosys_map) (fb : drm_framebuffer)
    (rect : drm_rect) (temp : Mem)
    (hw0 : 0 ≤ drm_rect_width rect) (hw2 : drm_rect_width rect % 2 = 0)
    (hw4 : drm_rect_width rect * 4 < 2147483648)
    (hy0 : 0 ≤ rect.y2) (hy2 : rect.y2 < 2147483648) (j : Nat) (hj : j < 8) :
    (ms912x_fb_xrgb8888_to_yuv422 dst src fb rect (some temp)).buf
        (8 + (min rect.y2 fb.height - rect.y1).toNat * (drm_rect_width rect * 2).toNat + j)
      = ms912x_end_of_buffer.getD j 0 := by
  obtain ⟨-, -, hb⟩ :=
    ms912x_fb_xrgb8888_to_yuv422_apply dst src fb rect temp hw0 hw2 hw4 hy0 hy2
  rw [hb, if_neg (by omega), if_neg (by omega), if_pos (by omega)]
  have e : 8 + (min rect.y2 fb.height - rect.y1).toNat * (drm_rect_width rect * 2).toNat + j
      - (8 + (min rect.y2 fb.height - rect.y1).toNat * (drm_rect_width rect * 2).toNat)
      = j := by omega
  rw [e]
  have hj' : j = 0 ∨ j = 1 ∨ j = 2 ∨ j = 3 ∨ j = 4 ∨ j = 5 ∨ j = 6 ∨ j = 7 := by omega
  rcases hj' with h | h | h | h | h | h | h | h <;> subst h <;> rfl

/-- The header occupies the first eight bytes. -/
theorem encoder_header_bytes (dst : Mem) (src : iosys_map) (fb : drm_framebuffer)
    (rect : drm_rect) (temp : Mem)
    (hw0 : 0 ≤ drm_rect_width rect) (hw2 : drm_rect_width rect % 2 = 0)
    (hw4 : drm_rect_width rect * 4 < 2147483648)
    (hy0 : 0 ≤ rect.y2) (hy2 : rect.y2 < 2147483648) (k : Nat) (hk : k < 8) :
    (ms912x_fb_xrgb8888_to_yuv422 dst src fb rect (some temp)).buf k
      = (ms912x_frame_update_header 0xff00 (rect.x1.tdiv 16) rect.y1
          ((drm_rect_width rect).tdiv 16) (drm_rect_height rect)).getD k 0 % 256 := by
  obtain ⟨-, -, hb⟩ :=
    ms912x_fb_xrgb8888_to_yuv422_apply dst src fb rect temp hw0 hw2 hw4 hy0 hy2
  rw [hb, if_pos hk]

/-! ### C6: the end-to-end scenario -/

theorem align_scenario (fb : drm_framebuffer) (hw : fb.width = 1366) :
    send_rect_align fb rect_scenario = { x1 := 0, y1 := 0, x2 := 32, y2 := 1 } ∧
    send_rect_width fb rect_scenario = 32 := by
  have h1 : send_rect_width fb rect_scenario = 32 := by
    simp only [send_rect_width, hw, rect_scenario]; decide
  refine ⟨?_, h1⟩
  simp only [send_rect_align, h1]
  decide

/-- C6. End-to-end scenario: for the rectangle (10, 0, 20, 1) on a
framebuffer 1366 pixels wide and at least one row high, `ms912x_fb_send_rect`
rewrites the rectangle to (0, 0, 32, 1); the buffer of the current request
then starts with the header `FF 00 00 00 00 02 00 01`, followed by the 64
payload bytes the converter produces from the 32 pixels of row 0, followed by
the marker `FF C0 00 00 00 00 00 00`, with nothing stored from offset 80 on;
and when the frame is submitted the call returns 0 with `transfer_len = 80`. -/
theorem scenario_frame (d : ms912x_device) (fb : drm_framebuffer) (map : iosys_map)
    (temp : Mem) (cpu_access : Int)
    (hw : fb.width = 1366) (hh : 1 ≤ fb.height) (hcpu : 0 ≤ cpu_access) :
    (ms912x_fb_send_rect d fb map rect_scenario cpu_access (some temp)).rect
      = { x1 := 0, y1 := 0, x2 := 32, y2 := 1 } ∧
    (List.range 8).map ((ms912x_fb_send_rect d fb map rect_scenario cpu_access
        (some temp)).dev.requests d.current_request).transfer_buffer
      = [0xFF, 0x00, 0x00, 0x00, 0x00, 0x02, 0x00, 0x01] ∧
    (∀ j, j < 64 →
      ((ms912x_fb_send_rect d fb map rect_scenario cpu_access
        (some temp)).dev.requests d.current_request).transfer_buffer (8 + j)
        = ms912x_xrgb_to_yuv422_avx2 zero_mem 0
            (fun c => if c < 32 then fb_pixel map fb 0 c else 0) 32 j) ∧
    (List.range 8).map (fun j => ((ms912x_fb_send_rect d fb map rect_scenario cpu_access
        (some temp)).dev.requests d.current_request).transfer_buffer (72 + j))
      = [0xFF, 0xC0, 0x00, 0x00, 0x00, 0x00, 0x00, 0x00] ∧
    (∀ k, 80 ≤ k →
      ((ms912x_fb_send_rect d fb map rect_scenario cpu_access
        (some temp)).dev.requests d.current_request).transfer_buffer k
        = (d.requests d.current_request).transfer_buffer k) ∧
    ((d.requests (1 - d.current_request)).done ≠ 0 →
      (ms912x_fb_send_rect d fb map rect_scenario cpu_access (some temp)).ret = 0 ∧
      ((ms912x_fb_send_rect d fb map rect_scenario cpu_access
        (some temp)).dev.requests d.current_request).transfer_len = 80 ∧
      ((ms912x_fb_send_rect d fb map rect_scenario cpu_access
        (some temp)).dev.requests d.current_request).work_queued = true) := by
  obtain ⟨hbuf, hrect⟩ := send_rect_buffer d fb map rect_scenario cpu_access (some temp) hcpu
  obtain ⟨hal, hwd⟩ := align_scenario fb hw
  rw [hbuf, hrect, hal]
  have hw0 : 0 ≤ drm_rect_width { x1 := 0, y1 := 0, x2 := 32, y2 := 1 } := by decide
  have hw2 : drm_rect_width { x1 := 0, y1 := 0, x2 := 32, y2 := 1 } % 2 = 0 := by decide
  have hW : (drm_rect_width { x1 := 0, y1 := 0, x2 := 32, y2 := 1 } * 2).toNat = 64 := by
    decide
  have hR : (min (1 : Int) fb.height - 0).toNat = 1 := by omega
  obtain ⟨-, -, hb⟩ := ms912x_fb_xrgb8888_to_yuv422_apply
    (d.requests d.current_request).transfer_buffer map fb
    { x1 := 0, y1 := 0, x2 := 32, y2 := 1 } temp hw0 hw2 (by decide) (by decide) (by decide)
  simp only [hW, hR] at hb
  refine ⟨rfl, ?_, ?_, ?_, ?_, ?_⟩
  · have hh := encoder_header_bytes (d.requests d.current_request).transfer_buffer map fb
      { x1 := 0, y1 := 0, x2 := 32, y2 := 1 } temp hw0 hw2 (by decide) (by decide) (by decide)
    simp only [List.range, List.range.loop, List.map]
    rw [hh 0 (by decide), hh 1 (by decide), hh 2 (by decide), hh 3 (by decide),
      hh 4 (by decide), hh 5 (by decide), hh 6 (by decide), hh 7 (by decide)]
    decide
  · intro j hj
    have h := encoder_row_bytes (d.requests d.current_request).transfer_buffer map fb
      { x1 := 0, y1 := 0, x2 := 32, y2 := 1 } temp zero_mem (by decide) (by decide) hw0 hw2
      (by decide) (by decide) (by simp) (by decide) (by decide) 0 j (by rw [hR]; decide)
      (by rw [hW]; exact hj)
    rw [hW, Nat.zero_mul, Nat.add_zero] at h
    rw [h]
    have hwv : drm_rect_width { x1 := 0, y1 := 0, x2 := 32, y2 := 1 } = 32 := by decide
    rw [hwv]
    congr 1
    funext c
    have e1 : ((c : Int) < 32) ↔ c < 32 := by omega
    simp only [e1, Int.toNat_zero, Nat.zero_add, Nat.add_zero]
  · have hm : ∀ j, j < 8 →
        (ms912x_fb_xrgb8888_to_yuv422 (d.requests d.current_request).transfer_buffer map fb
          { x1 := 0, y1 := 0, x2 := 32, y2 := 1 } (some temp)).buf (72 + j)
          = ms912x_end_of_buffer.getD j 0 := by
      intro j hj
      have h := encoder_marker_bytes (d.requests d.current_request).transfer_buffer map fb
        { x1 := 0, y1 := 0, x2 := 32, y2 := 1 } temp hw0 hw2 (by decide) (by decide)
        (by decide) j hj
      rw [hR, hW] at h
      exact h
    simp only [List.range, List.range.loop, List.map]
    rw [hm 0 (by decide), hm 1 (by decide), hm 2 (by decide), hm 3 (by decide),
      hm 4 (by decide), hm 5 (by decide), hm 6 (by decide), hm 7 (by decide)]
    decide
  · intro k hk
    rw [hb k, if_neg (by omega), if_neg (by omega), if_neg (by omega)]
  · intro hd
    obtain ⟨hret, -, hq, -, hlen, -, -⟩ :=
      send_rect_queued d fb map rect_scenario cpu_access temp hcpu hd
    refine ⟨hret, ?_, hq⟩
    rw [hlen, hwd, hal]
    decide

/-- Witness for C6: the scenario on the 1366 x 768 framebuffer with request 1
signalled. -/
theorem scenario_frame_witness :
    fb_1366.width = 1366 ∧ 1 ≤ fb_1366.height ∧ (0 : Int) ≤ 0 ∧
    (ms912x_fb_send_rect dev_primed fb_1366 map_black rect_scenario 0 (some zero_mem)).rect
      = { x1 := 0, y1 := 0, x2 := 32, y2 := 1 } ∧
    ((ms912x_fb_send_rect dev_primed fb_1366 map_black rect_scenario 0
      (some zero_mem)).dev.requests dev_primed.current_request).transfer_len = 80 :=
  ⟨rfl, by decide, le_refl _,
    (scenario_frame dev_primed fb_1366 map_black zero_mem 0 rfl (by decide) (le_refl _)).1,
    ((scenario_frame dev_primed fb_1366 map_black zero_mem 0 rfl (by decide)
      (le_refl _)).2.2.2.2.2 (by decide)).2.1⟩

/-! ### C7, C8: the clamp of `y2` is applied to the row loop only -/

theorem align_tall :
    send_rect_align fb_16x1 rect_tall = rect_tall ∧ send_rect_width fb_16x1 rect_tall = 16 := by
  decide

/-- C7, failing input. On the 16 x 1 framebuffer, the rectangle (0, 0, 16, 2)
is submitted with `transfer_len = 16 * 2 * 2 + 16 = 80`, while the encoder
stored 8 + 32 + 8 = 48 bytes: one row, since it clamps `y2` to the
framebuffer height; the buffer from offset 48 on is what it was before the
call. -/
theorem transfer_len_exceeds_written (map : iosys_map) (temp : Mem) :
    (ms912x_fb_send_rect dev_primed fb_16x1 map rect_tall 0 (some temp)).ret = 0 ∧
    ((ms912x_fb_send_rect dev_primed fb_16x1 map rect_tall 0 (some temp)).dev.requests
      0).work_queued = true ∧
    ((ms912x_fb_send_rect dev_primed fb_16x1 map rect_tall 0 (some temp)).dev.requests
      0).transfer_len = 80 ∧
    (ms912x_fb_xrgb8888_to_yuv422 (dev_primed.requests 0).transfer_buffer map fb_16x1
      (send_rect_align fb_16x1 rect_tall) (some temp)).tail = 48 ∧
    ∀ k, 48 ≤ k →
      ((ms912x_fb_send_rect dev_primed fb_16x1 map rect_tall 0 (some temp)).dev.requests
        0).transfer_buffer k = (dev_primed.requests 0).transfer_buffer k := by
  obtain ⟨hret, -, hq, -, hlen, -, -⟩ :=
    send_rect_queued dev_primed fb_16x1 map rect_tall 0 temp (le_refl _) (by decide)
  obtain ⟨hbuf, -⟩ := send_rect_buffer dev_primed fb_16x1 map rect_tall 0 (some temp) (le_refl _)
  obtain ⟨hal, hwd⟩ := align_tall
  obtain ⟨-, htail, hb⟩ := ms912x_fb_xrgb8888_to_yuv422_apply
    (dev_primed.requests 0).transfer_buffer map fb_16x1 rect_tall temp
    (by decide) (by decide) (by decide) (by decide) (by decide)
  have hR : (min rect_tall.y2 (fb_16x1.height : Int) - rect_tall.y1).toNat = 1 := by decide
  have hW : (drm_rect_width rect_tall * 2).toNat = 32 := by decide
  rw [hR, hW] at htail
  simp only [hR, hW] at hb
  have hcur : dev_primed.current_request = 0 := rfl
  rw [hcur] at hq hlen hbuf
  refine ⟨hret, hq, ?_, by rw [hal, htail], fun k hk => ?_⟩
  · rw [hlen, hwd, hal]; decide
  · rw [hbuf, hal, hb k, if_neg (by omega), if_neg (by omega), if_neg (by omega)]

/-- C8, failing input. On the 16 x 1 framebuffer, the header the encoder
writes for the rectangle (0, 0, 16, 2) is `FF 00 00 00 00 01 00 02`: height 2,
the unclamped `drm_rect_height(rect)`; the payload holds one row of 32 bytes,
and the marker follows at offset 40. -/
theorem header_height_unclamped (dst : Mem) (map : iosys_map) (temp : Mem) :
    (List.range 8).map (ms912x_fb_xrgb8888_to_yuv422 dst map fb_16x1 rect_tall (some temp)).buf
      = [0xFF, 0x00, 0x00, 0x00, 0x00, 0x01, 0x00, 0x02] ∧
    (List.range 8).map
        (fun j => (ms912x_fb_xrgb8888_to_yuv422 dst map fb_16x1 rect_tall (some temp)).buf
          (40 + j))
      = [0xFF, 0xC0, 0x00, 0x00, 0x00, 0x00, 0x00, 0x00] ∧
    (ms912x_fb_xrgb8888_to_yuv422 dst map fb_16x1 rect_tall (some temp)).tail = 48 ∧
    (min rect_tall.y2 (fb_16x1.height : Int) - rect_tall.y1).toNat = 1 := by
  have hR : (min rect_tall.y2 (fb_16x1.height : Int) - rect_tall.y1).toNat = 1 := by decide
  have hW : (drm_rect_width rect_tall * 2).toNat = 32 := by decide
  obtain ⟨-, htail, -⟩ := ms912x_fb_xrgb8888_to_yuv422_apply dst map fb_16x1 rect_tall temp
    (by decide) (by decide) (by decide) (by decide) (by decide)
  have hh := encoder_header_bytes dst map fb_16x1 rect_tall temp
    (by decide) (by decide) (by decide) (by decide) (by decide)
  have hm : ∀ j, j < 8 →
      (ms912x_fb_xrgb8888_to_yuv422 dst map fb_16x1 rect_tall (some temp)).buf (40 + j)
        = ms912x_end_of_buffer.getD j 0 := by
    intro j hj
    have h := encoder_marker_bytes dst map fb_16x1 rect_tall temp
      (by decide) (by decide) (by decide) (by decide) (by decide) j hj
    rw [hR, hW] at h
    exact h
  rw [hR, hW] at htail
  refine ⟨?_, ?_, htail, hR⟩
  · simp only [List.range, List.range.loop, List.map]
    rw [hh 0 (by decide), hh 1 (by decide), hh 2 (by decide), hh 3 (by decide),
      hh 4 (by decide), hh 5 (by decide), hh 6 (by decide), hh 7 (by decide)]
    decide
  · simp only [List.range, List.range.loop, List.map]
    rw [hm 0 (by decide), hm 1 (by decide), hm 2 (by decide), hm 3 (by decide),
      hm 4 (by decide), hm 5 (by decide), hm 6 (by decide), hm 7 (by decide)]
    decide

theorem header_getD (a b c d e : Int) :
    (ms912x_frame_update_header a b c d e).getD 0 0 = ((a % 65536) / 256).toNat ∧
    (ms912x_frame_update_header a b c d e).getD 1 0 = (a % 256).toNat ∧
    (ms912x_frame_update_header a b c d e).getD 2 0 = (b % 256).toNat ∧
    (ms912x_frame_update_header a b c d e).getD 3 0 = ((c % 65536) / 256).toNat ∧
    (ms912x_frame_update_header a b c d e).getD 4 0 = (c % 256).toNat ∧
    (ms912x_frame_update_header a b c d e).getD 5 0 = (d % 256).toNat ∧
    (ms912x_frame_update_header a b c d e).getD 6 0 = ((e % 65536) / 256).toNat ∧
    (ms912x_frame_update_header a b c d e).getD 7 0 = (e % 256).toNat :=
  ⟨rfl, rfl, rfl, rfl, rfl, rfl, rfl, rfl⟩

/-- The header the encoder writes, for a rectangle whose fields fit the header
(`0 ≤ x1 ≤ x2 < 4096`, `0 ≤ y1 ≤ y2 < 65536`): `FF 00`, `x1 / 16`, `y1`
big-endian, `width / 16`, and `y2 - y1` big-endian, the height of the
rectangle as passed, whatever the framebuffer height. -/
theorem header_layout (dst : Mem) (src : iosys_map) (fb : drm_framebuffer)
    (rect : drm_rect) (temp : Mem)
    (hx1 : 0 ≤ rect.x1) (hx : rect.x1 ≤ rect.x2) (hx2 : rect.x2 < 4096)
    (ha1 : rect.x1 % 16 = 0) (ha2 : rect.x2 % 16 = 0)
    (hy1 : 0 ≤ rect.y1) (hy : rect.y1 ≤ rect.y2) (hy2 : rect.y2 < 65536) :
    (List.range 8).map (ms912x_fb_xrgb8888_to_yuv422 dst src fb rect (some temp)).buf
      = [0xFF, 0x00, (rect.x1 / 16).toNat, (rect.y1 / 256).toNat, (rect.y1 % 256).toNat,
          ((rect.x2 - rect.x1) / 16).toNat, ((rect.y2 - rect.y1) / 256).toNat,
          ((rect.y2 - rect.y1) % 256).toNat] := by
  have b0 : (((0xff00 : Int) % 65536) / 256).toNat % 256 = 0xFF := by decide
  have b1 : ((0xff00 : Int) % 256).toNat % 256 = 0x00 := by decide
  have b2 : (rect.x1 / 16 % 256).toNat % 256 = (rect.x1 / 16).toNat := by omega
  have b3 : (rect.y1 % 65536 / 256).toNat % 256 = (rect.y1 / 256).toNat := by omega
  have b4 : (rect.y1 % 256).toNat % 256 = (rect.y1 % 256).toNat := by omega
  have b5 : ((rect.x2 - rect.x1) / 16 % 256).toNat % 256
      = ((rect.x2 - rect.x1) / 16).toNat := by omega
  have b6 : ((rect.y2 - rect.y1) % 65536 / 256).toNat % 256
      = ((rect.y2 - rect.y1) / 256).toNat := by omega
  have b7 : ((rect.y2 - rect.y1) % 256).toNat % 256
      = ((rect.y2 - rect.y1) % 256).toNat := by omega
  have ew : drm_rect_width rect = rect.x2 - rect.x1 :=
    int_wrap_eq _ (by omega) (by omega)
  have eh : drm_rect_height rect = rect.y2 - rect.y1 :=
    int_wrap_eq _ (by omega) (by omega)
  have hw0 : 0 ≤ drm_rect_width rect := by rw [ew]; omega
  have hw2 : drm_rect_width rect % 2 = 0 := by rw [ew]; omega
  have hh := encoder_header_bytes dst src fb rect temp hw0 hw2 (by rw [ew]; omega) (by omega)
    (by omega)
  obtain ⟨g0, g1, g2, g3, g4, g5, g6, g7⟩ := header_getD 0xff00 (rect.x1.tdiv 16) rect.y1
    ((drm_rect_width rect).tdiv 16) (drm_rect_height rect)
  simp only [List.range, List.range.loop, List.map]
  rw [hh 0 (by decide), hh 1 (by decide), hh 2 (by decide), hh 3 (by decide),
    hh 4 (by decide), hh 5 (by decide), hh 6 (by decide), hh 7 (by decide),
    g0, g1, g2, g3, g4, g5, g6, g7]
  rw [Int.tdiv_eq_ediv hx1 (by decide), Int.tdiv_eq_ediv hw0 (by decide), ew, eh]
  rw [b0, b1, b2, b3, b4, b5, b6, b7]

/-! ### C9: the frame body -/

/-- C9, as the code has it. For a 16-aligned rectangle with `0 ≤ x1 ≤ x2`,
`0 ≤ y1` and `0 ≤ y2`, whose byte offsets do not wrap in the 32-bit
arithmetic of the encoder (`4 * x2 < 2^31` for the `int` products `x * 4` and
`width * 4`, `y1 * pitch < 2^32` for the `unsigned int` product
`y1 * fb->pitches[0]`, `y2 < 2^31` for an `int`), when the scratch allocation
succeeds the encoder returns 0 and the bytes after the 8-byte header are, for
each row `r` below `min(y2, fb_height) - y1` in increasing order, the
`2 * width` bytes the colour converter produces from the pixels of
framebuffer row `y1 + r` in columns `x1` to `x2`, followed immediately by the
marker `FF C0 00 00 00 00 00 00`; nothing is stored behind the marker. -/
theorem frame_body_layout (dst : Mem) (src : iosys_map) (fb : drm_framebuffer)
    (rect : drm_rect) (temp m0 : Mem)
    (hx1 : 0 ≤ rect.x1) (hx : rect.x1 ≤ rect.x2) (hx4 : rect.x2 * 4 < 2147483648)
    (ha1 : rect.x1 % 16 = 0) (ha2 : rect.x2 % 16 = 0)
    (hy1 : 0 ≤ rect.y1) (hyp : rect.y1 * fb.pitch < 4294967296)
    (hy0 : 0 ≤ rect.y2) (hy2 : rect.y2 < 2147483648) :
    (ms912x_fb_xrgb8888_to_yuv422 dst src fb rect (some temp)).ret = 0 ∧
    (∀ r j, r < (min rect.y2 fb.height - rect.y1).toNat →
      j < (drm_rect_width rect * 2).toNat →
      (ms912x_fb_xrgb8888_to_yuv422 dst src fb rect (some temp)).buf
          (8 + r * (drm_rect_width rect * 2).toNat + j)
        = ms912x_xrgb_to_yuv422_avx2 m0 0
            (fun c => if (c : Int) < drm_rect_width rect then
                fb_pixel src fb (rect.y1.toNat + r) (rect.x1.toNat + c) else 0)
            (drm_rect_width rect) j) ∧
    (∀ j, j < 8 →
      (ms912x_fb_xrgb8888_to_yuv422 dst src fb rect (some temp)).buf
          (8 + (min rect.y2 fb.height - rect.y1).toNat * (drm_rect_width rect * 2).toNat + j)
        = ms912x_end_of_buffer.getD j 0) ∧
    (ms912x_fb_xrgb8888_to_yuv422 dst src fb rect (some temp)).tail
      = 8 + (min rect.y2 fb.height - rect.y1).toNat * (drm_rect_width rect * 2).toNat + 8 ∧
    ∀ k, (ms912x_fb_xrgb8888_to_yuv422 dst src fb rect (some temp)).tail ≤ k →
      (ms912x_fb_xrgb8888_to_yuv422 dst src fb rect (some temp)).buf k = dst k := by
  have ew : drm_rect_width rect = rect.x2 - rect.x1 :=
    int_wrap_eq _ (by omega) (by omega)
  have hw0 : 0 ≤ drm_rect_width rect := by rw [ew]; omega
  have hw2 : drm_rect_width rect % 2 = 0 := by rw [ew]; omega
  have hw4 : drm_rect_width rect * 4 < 2147483648 := by rw [ew]; omega
  obtain ⟨hret, htail, hb⟩ :=
    ms912x_fb_xrgb8888_to_yuv422_apply dst src fb rect temp hw0 hw2 hw4 hy0 hy2
  refine ⟨hret, fun r j hr hj => ?_, fun j hj => ?_, htail, fun k hk => ?_⟩
  · exact encoder_row_bytes dst src fb rect temp m0 hx1 (by omega) hw0 hw2 hw4 hy1 hyp hy0 hy2
      r j hr hj
  · exact encoder_marker_bytes dst src fb rect temp hw0 hw2 hw4 hy0 hy2 j hj
  · rw [htail] at hk
    rw [hb k, if_neg (by omega), if_neg (by omega), if_neg (by omega)]

/-- Witness for C9: the aligned rectangle of the scenario on the black
1366 x 768 framebuffer. -/
theorem frame_body_layout_witness :
    (0 : Int) ≤ rect_aligned.x1 ∧ rect_aligned.x1 ≤ rect_aligned.x2 ∧
    rect_aligned.x2 * 4 < 2147483648 ∧
    rect_aligned.x1 % 16 = 0 ∧ rect_aligned.x2 % 16 = 0 ∧ 0 ≤ rect_aligned.y1 ∧
    rect_aligned.y1 * fb_1366.pitch < 4294967296 ∧
    0 ≤ rect_aligned.y2 ∧ rect_aligned.y2 < 2147483648 ∧
    (ms912x_fb_xrgb8888_to_yuv422 zero_mem map_black fb_1366 rect_aligned
      (some zero_mem)).tail
      = 8 + (min rect_aligned.y2 fb_1366.height - rect_aligned.y1).toNat
        * (drm_rect_width rect_aligned * 2).toNat + 8 :=
  ⟨by decide, by decide, by decide, by decide, by decide, by decide, by decide, by decide,
    by decide,
    (frame_body_layout zero_mem map_black fb_1366 rect_aligned zero_mem zero_mem
      (by decide) (by decide) (by decide) (by decide) (by decide) (by decide) (by decide)
      (by decide) (by decide)).2.2.2.1⟩

/-- Counterexample to C9 as stated, on two inputs.  First, for the 16-aligned
rectangle (0, 0, 16, -1) on the black 16 x 1 framebuffer there is no row `i`
with `y1 ≤ i < min(y2, fb_height)`, so the marker should follow the header at
offset 8; the encoder, which clamps `(unsigned int)rect->y2`, encodes row 0:
offset 8 holds the chroma byte 128 and the marker follows at offset 40.
Second, for the 16-aligned rectangle (0, 65536, 16, 65537) on a framebuffer
of pitch 65536 the row to encode is row 65536, which is black (luma 16); the
`unsigned int` product `y1 * fb->pitches[0]` is 2^32 and wraps to 0, so the
encoder encodes row 0, which is white: the first luma byte, at offset 9, is
234. -/
theorem frame_body_not_as_stated :
    ((0 : Int) ≤ rect_neg.x1 ∧ rect_neg.x1 ≤ rect_neg.x2 ∧ rect_neg.x1 % 16 = 0 ∧
      rect_neg.x2 % 16 = 0 ∧ 0 ≤ rect_neg.y1 ∧
      (min rect_neg.y2 (fb_16x1.height : Int) - rect_neg.y1).toNat = 0 ∧
      (ms912x_fb_xrgb8888_to_yuv422 zero_mem map_black fb_16x1 rect_neg (some zero_mem)).buf 8
        = 128 ∧
      (ms912x_fb_xrgb8888_to_yuv422 zero_mem map_black fb_16x1 rect_neg (some zero_mem)).buf 8
        ≠ ms912x_end_of_buffer.getD 0 0 ∧
      (ms912x_fb_xrgb8888_to_yuv422 zero_mem map_black fb_16x1 rect_neg (some zero_mem)).buf 40
        = 0xFF ∧
      (ms912x_fb_xrgb8888_to_yuv422 zero_mem map_black fb_16x1 rect_neg (some zero_mem)).tail
        = 48) ∧
    ((0 : Int) ≤ rect_row_64k.x1 ∧ rect_row_64k.x1 ≤ rect_row_64k.x2 ∧
      rect_row_64k.x1 % 16 = 0 ∧ rect_row_64k.x2 % 16 = 0 ∧ 0 ≤ rect_row_64k.y1 ∧
      (min rect_row_64k.y2 (fb_pitch_64k.height : Int) - rect_row_64k.y1).toNat = 1 ∧
      u32_of_int (rect_row_64k.y1 * fb_pitch_64k.pitch) = 0 ∧
      ms912x_xrgb_to_yuv422_avx2 zero_mem 0
          (fun c => if (c : Int) < drm_rect_width rect_row_64k then
              fb_pixel map_row0_white fb_pitch_64k (rect_row_64k.y1.toNat + 0)
                (rect_row_64k.x1.toNat + c) else 0)
          (drm_rect_width rect_row_64k) 1 = 16 ∧
      (ms912x_fb_xrgb8888_to_yuv422 zero_mem map_row0_white fb_pitch_64k rect_row_64k
          (some zero_mem)).buf (8 + 0 * (drm_rect_width rect_row_64k * 2).toNat + 1) = 234 ∧
      (ms912x_fb_xrgb8888_to_yuv422 zero_mem map_row0_white fb_pitch_64k rect_row_64k
          (some zero_mem)).buf (8 + 0 * (drm_rect_width rect_row_64k * 2).toNat + 1)
        = ms912x_xrgb_to_yuv422_avx2 zero_mem 0
            (fun c => if (c : Int) < drm_rect_width rect_row_64k then
                fb_pixel map_row0_white fb_pitch_64k 0 (rect_row_64k.x1.toNat + c) else 0)
            (drm_rect_width rect_row_64k) 1) := by
  refine ⟨by decide, ?_⟩
  decide

/-! ### C10: luma -/

theorem xrgb_channels_lt (p : Nat) : xrgb_r p < 256 ∧ xrgb_g p < 256 ∧ xrgb_b p < 256 := by
  have h : ∀ x : Nat, x &&& 0xFF = x % 256 := fun x => Nat.and_pow_two_sub_one_eq_mod x 8
  simp only [xrgb_r, xrgb_g, xrgb_b, h]
  omega

/-- For channels in 0..255 the `u32` computation of `ms912x_rgb_to_y` neither
wraps nor leaves the range of a byte, and agrees with the formula over the
integers. -/
theorem ms912x_rgb_to_y_exact (r g b : Nat) (hr : r < 256) (hg : g < 256) (hb : b < 256) :
    ((ms912x_rgb_to_y r g b % 256 : Nat) : Int) = luma_exact r g b := by
  unfold ms912x_rgb_to_y luma_exact clamp8
  rw [Nat.shiftRight_eq_div_pow, Int.shiftRight_eq_div_pow]
  have hS : (1048576 + 16763 * r + 32904 * g + 6391 * b) % 4294967296
      = 1048576 + 16763 * r + 32904 * g + 6391 * b := Nat.mod_eq_of_lt (by omega)
  have hq : (1048576 + 16763 * r + 32904 * g + 6391 * b) / 2 ^ 16 < 256 := by omega
  rw [hS, Nat.mod_eq_of_lt hq]
  push_cast
  have hnn : (0 : Int) ≤ (1048576 + 16763 * (r : Int) + 32904 * g + 6391 * b) / 65536 :=
    Int.ediv_nonneg (by omega) (by decide)
  have hlt : (1048576 + 16763 * (r : Int) + 32904 * g + 6391 * b) / 65536 < 256 := by omega
  omega

/-- C10, as the code has it. Every luma byte written by
`ms912x_xrgb_to_yuv422_avx2` equals
`clamp8((1048576 + 16763 r + 32904 g + 6391 b) >> 16)` over the integers,
where `r`, `g`, `b` are the channels of its pixel: byte `4 j + 1` for pixel
`2 j` and byte `4 j + 3` for pixel `2 j + 1`. -/
theorem luma_bytes (m : Mem) (dst : Nat) (src : Nat → Nat) (width : Int) (j : Nat)
    (hj : (2 * j : Int) < width) :
    ((ms912x_xrgb_to_yuv422_avx2 m dst src width (dst + 4 * j + 1) : Nat) : Int)
      = luma_exact (xrgb_r (src (2 * j))) (xrgb_g (src (2 * j))) (xrgb_b (src (2 * j))) ∧
    ((ms912x_xrgb_to_yuv422_avx2 m dst src width (dst + 4 * j + 3) : Nat) : Int)
      = luma_exact (xrgb_r (src (2 * j + 1))) (xrgb_g (src (2 * j + 1)))
          (xrgb_b (src (2 * j + 1))) := by
  have h1 := xrgb_channels_lt (src (2 * j))
  have h2 := xrgb_channels_lt (src (2 * j + 1))
  rw [ms912x_xrgb_to_yuv422_avx2_apply, ms912x_xrgb_to_yuv422_avx2_apply,
    if_pos (by omega), if_pos (by omega)]
  have e1 : dst + 4 * j + 1 - dst = 4 * j + 1 := by omega
  have e3 : dst + 4 * j + 3 - dst = 4 * j + 3 := by omega
  have d1 : (4 * j + 1) / 4 = j := by omega
  have d3 : (4 * j + 3) / 4 = j := by omega
  have m1 : (4 * j + 1) % 4 = 1 := by omega
  have m3 : (4 * j + 3) % 4 = 3 := by omega
  rw [e1, e3]
  simp only [yuv422_row_byte, d1, d3, m1, m3, macropixel_byte]
  refine ⟨?_, ?_⟩
  · simpa using ms912x_rgb_to_y_exact _ _ _ h1.1 h1.2.1 h1.2.2
  · simpa using ms912x_rgb_to_y_exact _ _ _ h2.1 h2.2.1 h2.2.2

/-- Witness for C10: the two luma bytes of a black pixel pair. -/
theorem luma_bytes_witness :
    ((2 * (0 : Nat) : Int) < 2) ∧
    ((ms912x_xrgb_to_yuv422_avx2 zero_mem 0 black_row 2 (0 + 4 * 0 + 1) : Nat) : Int)
      = luma_exact (xrgb_r (black_row (2 * 0))) (xrgb_g (black_row (2 * 0)))
          (xrgb_b (black_row (2 * 0))) :=
  ⟨by decide, (luma_bytes zero_mem 0 black_row 2 0 (by decide)).1⟩

/-- Counterexample to C10 as stated: for a black pixel (r = g = b = 0) the
luma byte written is 16, while `clamp8((65536 + 0) >> 16)` is 1. -/
theorem luma_offset_is_16 :
    xrgb_r (black_row 0) = 0 ∧ xrgb_g (black_row 0) = 0 ∧ xrgb_b (black_row 0) = 0 ∧
    ((ms912x_xrgb_to_yuv422_avx2 zero_mem 0 black_row 2 1 : Nat) : Int) = 16 ∧
    spec_luma (xrgb_r (black_row 0)) (xrgb_g (black_row 0)) (xrgb_b (black_row 0)) = 1 ∧
    ((ms912x_xrgb_to_yuv422_avx2 zero_mem 0 black_row 2 1 : Nat) : Int)
      ≠ spec_luma (xrgb_r (black_row 0)) (xrgb_g (black_row 0)) (xrgb_b (black_row 0)) := by
  decide

/-! ### C11: chroma -/

/-- The four bytes of macro-pixel `j`, for every pair the loop reaches. -/
theorem macropixel_bytes (m : Mem) (dst : Nat) (src : Nat → Nat) (width : Int) (j : Nat)
    (hj : (2 * j : Int) < width) (lane : Nat) (hl : lane < 4) :
    ms912x_xrgb_to_yuv422_avx2 m dst src width (dst + 4 * j + lane)
      = macropixel_byte (src (2 * j)) (src (2 * j + 1)) lane := by
  rw [ms912x_xrgb_to_yuv422_avx2_apply, if_pos (by omega)]
  have e : dst + 4 * j + lane - dst = 4 * j + lane := by omega
  have d : (4 * j + lane) / 4 = j := by omega
  have r : (4 * j + lane) % 4 = lane := by omega
  rw [e]
  simp only [yuv422_row_byte, d, r]

/-- The four lanes of a macro-pixel: U, Y1, V, Y2, each cast to `u8`. -/
theorem macropixel_byte_lanes (p1 p2 : Nat) :
    macropixel_byte p1 p2 0
      = ms912x_rgb_to_u ((xrgb_r p1 + xrgb_r p2) / 2) ((xrgb_g p1 + xrgb_g p2) / 2)
          ((xrgb_b p1 + xrgb_b p2) / 2) % 256 ∧
    macropixel_byte p1 p2 1 = ms912x_rgb_to_y (xrgb_r p1) (xrgb_g p1) (xrgb_b p1) % 256 ∧
    macropixel_byte p1 p2 2
      = ms912x_rgb_to_v ((xrgb_r p1 + xrgb_r p2) / 2) ((xrgb_g p1 + xrgb_g p2) / 2)
          ((xrgb_b p1 + xrgb_b p2) / 2) % 256 ∧
    macropixel_byte p1 p2 3 = ms912x_rgb_to_y (xrgb_r p2) (xrgb_g p2) (xrgb_b p2) % 256 :=
  ⟨rfl, rfl, rfl, rfl⟩

/-- For arguments in 0..255 the `u32` computation of `ms912x_rgb_to_u` neither
wraps nor leaves the range of a byte, and agrees with the formula over the
integers. -/
theorem ms912x_rgb_to_u_exact (r g b : Nat) (hr : r < 256) (hg : g < 256) (hb : b < 256) :
    ((ms912x_rgb_to_u r g b % 256 : Nat) : Int) = spec_chroma_u r g b := by
  unfold ms912x_rgb_to_u spec_chroma_u clamp8 u32_of_int
  rw [Nat.shiftRight_eq_div_pow, Int.shiftRight_eq_div_pow]
  have h0 : (0 : Int) ≤ 8388608 - 9676 * (r : Int) - 18996 * g + 28672 * b := by omega
  have h1 : 8388608 - 9676 * (r : Int) - 18996 * g + 28672 * b < 16777216 := by omega
  have hS : (8388608 - 9676 * (r : Int) - 18996 * g + 28672 * b) % 4294967296
      = 8388608 - 9676 * (r : Int) - 18996 * g + 28672 * b :=
    Int.emod_eq_of_lt h0 (by omega)
  rw [hS]
  generalize 8388608 - 9676 * (r : Int) - 18996 * g + 28672 * b = e at h0 h1
  have hq : e.toNat / 2 ^ 16 < 256 := by omega
  rw [Nat.mod_eq_of_lt hq]
  push_cast
  omega

/-- For arguments in 0..255 the `u32` computation of `ms912x_rgb_to_v` neither
wraps nor leaves the range of a byte, and agrees with the formula over the
integers. -/
theorem ms912x_rgb_to_v_exact (r g b : Nat) (hr : r < 256) (hg : g < 256) (hb : b < 256) :
    ((ms912x_rgb_to_v r g b % 256 : Nat) : Int) = spec_chroma_v r g b := by
  unfold ms912x_rgb_to_v spec_chroma_v clamp8 u32_of_int
  rw [Nat.shiftRight_eq_div_pow, Int.shiftRight_eq_div_pow]
  have h0 : (0 : Int) ≤ 8388608 + 28672 * (r : Int) - 24009 * g - 4663 * b := by omega
  have h1 : 8388608 + 28672 * (r : Int) - 24009 * g - 4663 * b < 16777216 := by omega
  have hS : (8388608 + 28672 * (r : Int) - 24009 * g - 4663 * b) % 4294967296
      = 8388608 + 28672 * (r : Int) - 24009 * g - 4663 * b :=
    Int.emod_eq_of_lt h0 (by omega)
  rw [hS]
  generalize 8388608 + 28672 * (r : Int) - 24009 * g - 4663 * b = e at h0 h1
  have hq : e.toNat / 2 ^ 16 < 256 := by omega
  rw [Nat.mod_eq_of_lt hq]
  push_cast
  omega

/-- C11. Chroma formulas: for every pixel pair the loop reaches, with
`r_avg = (r1 + r2) / 2`, `g_avg = (g1 + g2) / 2`, `b_avg = (b1 + b2) / 2`
(truncating) of the channels of the two pixels, the U byte (offset `4 j`) and
the V byte (offset `4 j + 2`) written by `ms912x_xrgb_to_yuv422_avx2`, computed
in `u32` arithmetic and cast to `u8`, equal
`clamp8((8388608 - 9676 r_avg - 18996 g_avg + 28672 b_avg) >> 16)` and
`clamp8((8388608 + 28672 r_avg - 24009 g_avg - 4663 b_avg) >> 16)` over the
integers. -/
theorem chroma_bytes (m : Mem) (dst : Nat) (src : Nat → Nat) (width : Int) (j : Nat)
    (hj : (2 * j : Int) < width) :
    ((ms912x_xrgb_to_yuv422_avx2 m dst src width (dst + 4 * j) : Nat) : Int)
      = spec_chroma_u (((xrgb_r (src (2 * j)) + xrgb_r (src (2 * j + 1))) / 2 : Nat) : Int)
          (((xrgb_g (src (2 * j)) + xrgb_g (src (2 * j + 1))) / 2 : Nat) : Int)
          (((xrgb_b (src (2 * j)) + xrgb_b (src (2 * j + 1))) / 2 : Nat) : Int) ∧
    ((ms912x_xrgb_to_yuv422_avx2 m dst src width (dst + 4 * j + 2) : Nat) : Int)
      = spec_chroma_v (((xrgb_r (src (2 * j)) + xrgb_r (src (2 * j + 1))) / 2 : Nat) : Int)
          (((xrgb_g (src (2 * j)) + xrgb_g (src (2 * j + 1))) / 2 : Nat) : Int)
          (((xrgb_b (src (2 * j)) + xrgb_b (src (2 * j + 1))) / 2 : Nat) : Int) := by
  obtain ⟨r1, g1, b1⟩ := xrgb_channels_lt (src (2 * j))
  obtain ⟨r2, g2, b2⟩ := xrgb_channels_lt (src (2 * j + 1))
  have h0 := macropixel_bytes m dst src width j hj 0 (by decide)
  have h2 := macropixel_bytes m dst src width j hj 2 (by decide)
  rw [Nat.add_zero] at h0
  obtain ⟨l0, -, l2, -⟩ := macropixel_byte_lanes (src (2 * j)) (src (2 * j + 1))
  rw [h0, h2, l0, l2]
  refine ⟨?_, ?_⟩
  · exact ms912x_rgb_to_u_exact _ _ _ (by omega) (by omega) (by omega)
  · exact ms912x_rgb_to_v_exact _ _ _ (by omega) (by omega) (by omega)

/-- Witness for C11: the chroma bytes of a mid-gray pixel pair. -/
theorem chroma_bytes_witness :
    ((2 * (0 : Nat) : Int) < 2) ∧
    ((ms912x_xrgb_to_yuv422_avx2 zero_mem 0 gray_row 2 (0 + 4 * 0) : Nat) : Int)
      = spec_chroma_u
          (((xrgb_r (gray_row (2 * 0)) + xrgb_r (gray_row (2 * 0 + 1))) / 2 : Nat) : Int)
          (((xrgb_g (gray_row (2 * 0)) + xrgb_g (gray_row (2 * 0 + 1))) / 2 : Nat) : Int)
          (((xrgb_b (gray_row (2 * 0)) + xrgb_b (gray_row (2 * 0 + 1))) / 2 : Nat) : Int) :=
  ⟨by decide, (chroma_bytes zero_mem 0 gray_row 2 0 (by decide)).1⟩

/-! ### C12, C13: gray and white rows -/

theorem ms912x_rgb_to_u_gray (k : Nat) : ms912x_rgb_to_u k k k = 128 := by
  unfold ms912x_rgb_to_u
  have e : (8388608 : Int) - 9676 * (k : Int) - 18996 * k + 28672 * k = 8388608 := by ring
  rw [e]
  decide

theorem ms912x_rgb_to_v_gray (k : Nat) : ms912x_rgb_to_v k k k = 128 := by
  unfold ms912x_rgb_to_v
  have e : (8388608 : Int) + 28672 * (k : Int) - 24009 * k - 4663 * k = 8388608 := by ring
  rw [e]
  decide

/-- The macro-pixel of a pair of pixels that both have `r = g = b = k`. -/
theorem macropixel_gray (p1 p2 k : Nat)
    (h1 : xrgb_r p1 = k ∧ xrgb_g p1 = k ∧ xrgb_b p1 = k)
    (h2 : xrgb_r p2 = k ∧ xrgb_g p2 = k ∧ xrgb_b p2 = k) :
    macropixel_byte p1 p2 0 = 128 ∧
    macropixel_byte p1 p2 1 = ms912x_rgb_to_y k k k % 256 ∧
    macropixel_byte p1 p2 2 = 128 ∧
    macropixel_byte p1 p2 3 = ms912x_rgb_to_y k k k % 256 := by
  obtain ⟨l0, l1, l2, l3⟩ := macropixel_byte_lanes p1 p2
  have ha : (k + k) / 2 = k := by omega
  rw [l0, l1, l2, l3, h1.1, h1.2.1, h1.2.2, h2.1, h2.2.1, h2.2.2, ha,
    ms912x_rgb_to_u_gray, ms912x_rgb_to_v_gray]
  exact ⟨rfl, rfl, rfl, rfl⟩

theorem gray_row_channels (i : Nat) :
    xrgb_r (gray_row i) = 128 ∧ xrgb_g (gray_row i) = 128 ∧ xrgb_b (gray_row i) = 128 := by
  show xrgb_r 0x808080 = 128 ∧ xrgb_g 0x808080 = 128 ∧ xrgb_b 0x808080 = 128
  decide

theorem white_row_channels (i : Nat) :
    xrgb_r (white_row i) = 255 ∧ xrgb_g (white_row i) = 255 ∧ xrgb_b (white_row i) = 255 := by
  show xrgb_r 0xFFFFFFFF = 255 ∧ xrgb_g 0xFFFFFFFF = 255 ∧ xrgb_b 0xFFFFFFFF = 255
  decide

/-- C12. Gray input gives neutral chroma: for every `k` and every even width,
if every source pixel has `r = g = b = k`, then every macro-pixel written by
`ms912x_xrgb_to_yuv422_avx2` has `U = 128` (offset `4 j`) and `V = 128`
(offset `4 j + 2`). -/
theorem gray_neutral_chroma (m : Mem) (dst : Nat) (src : Nat → Nat) (width : Int) (k j : Nat)
    (hw2 : width % 2 = 0)
    (hpix : ∀ i : Nat, (i : Int) < width →
      xrgb_r (src i) = k ∧ xrgb_g (src i) = k ∧ xrgb_b (src i) = k)
    (hj : (2 * j : Int) < width) :
    ms912x_xrgb_to_yuv422_avx2 m dst src width (dst + 4 * j) = 128 ∧
    ms912x_xrgb_to_yuv422_avx2 m dst src width (dst + 4 * j + 2) = 128 := by
  have h1 := hpix (2 * j) (by push_cast; omega)
  have h2 := hpix (2 * j + 1) (by push_cast; omega)
  obtain ⟨g0, -, g2, -⟩ := macropixel_gray (src (2 * j)) (src (2 * j + 1)) k h1 h2
  have b0 := macropixel_bytes m dst src width j hj 0 (by decide)
  have b2 := macropixel_bytes m dst src width j hj 2 (by decide)
  rw [Nat.add_zero] at b0
  rw [b0, b2]
  exact ⟨g0, g2⟩

/-- Witness for C12: a row of two mid-gray pixels. -/
theorem gray_neutral_chroma_witness :
    ((2 : Int) % 2 = 0) ∧
    (∀ i : Nat, (i : Int) < 2 →
      xrgb_r (gray_row i) = 128 ∧ xrgb_g (gray_row i) = 128 ∧ xrgb_b (gray_row i) = 128) ∧
    ((2 * (0 : Nat) : Int) < 2) ∧
    ms912x_xrgb_to_yuv422_avx2 zero_mem 0 gray_row 2 (0 + 4 * 0) = 128 ∧
    ms912x_xrgb_to_yuv422_avx2 zero_mem 0 gray_row 2 (0 + 4 * 0 + 2) = 128 :=
  ⟨by decide, fun i _ => gray_row_channels i, by decide,
    gray_neutral_chroma zero_mem 0 gray_row 2 128 0 (by decide)
      (fun i _ => gray_row_channels i) (by decide)⟩

/-- C13, as the code has it. Solid white: for a row of even width in which
every pixel has `r = g = b = 255`, every macro-pixel written by
`ms912x_xrgb_to_yuv422_avx2` is `U = 128`, `Y1 = 234`, `V = 128`,
`Y2 = 234`. -/
theorem white_macropixels (m : Mem) (dst : Nat) (src : Nat → Nat) (width : Int) (j : Nat)
    (hw2 : width % 2 = 0)
    (hpix : ∀ i : Nat, (i : Int) < width →
      xrgb_r (src i) = 255 ∧ xrgb_g (src i) = 255 ∧ xrgb_b (src i) = 255)
    (hj : (2 * j : Int) < width) :
    ms912x_xrgb_to_yuv422_avx2 m dst src width (dst + 4 * j) = 128 ∧
    ms912x_xrgb_to_yuv422_avx2 m dst src width (dst + 4 * j + 1) = 234 ∧
    ms912x_xrgb_to_yuv422_avx2 m dst src width (dst + 4 * j + 2) = 128 ∧
    ms912x_xrgb_to_yuv422_avx2 m dst src width (dst + 4 * j + 3) = 234 := by
  have h1 := hpix (2 * j) (by push_cast; omega)
  have h2 := hpix (2 * j + 1) (by push_cast; omega)
  obtain ⟨g0, g1, g2, g3⟩ := macropixel_gray (src (2 * j)) (src (2 * j + 1)) 255 h1 h2
  have b0 := macropixel_bytes m dst src width j hj 0 (by decide)
  have b1 := macropixel_bytes m dst src width j hj 1 (by decide)
  have b2 := macropixel_bytes m dst src width j hj 2 (by decide)
  have b3 := macropixel_bytes m dst src width j hj 3 (by decide)
  rw [Nat.add_zero] at b0
  rw [b0, b1, b2, b3]
  exact ⟨g0, g1, g2, g3⟩

/-- Witness for C13: a row of two white pixels. -/
theorem white_macropixels_witness :
    ((2 : Int) % 2 = 0) ∧
    (∀ i : Nat, (i : Int) < 2 →
      xrgb_r (white_row i) = 255 ∧ xrgb_g (white_row i) = 255 ∧ xrgb_b (white_row i) = 255) ∧
    ((2 * (0 : Nat) : Int) < 2) ∧
    ms912x_xrgb_to_yuv422_avx2 zero_mem 0 white_row 2 (0 + 4 * 0 + 1) = 234 :=
  ⟨by decide, fun i _ => white_row_channels i, by decide,
    (white_macropixels zero_mem 0 white_row 2 0 (by decide)
      (fun i _ => white_row_channels i) (by decide)).2.1⟩

/-- Counterexample to C13 as stated: for a row of two white pixels
(r = g = b = 255) the macro-pixel written is `80 EA 80 EA`: both luma bytes
are 234, not 235. -/
theorem white_luma_is_234 :
    xrgb_r (white_row 0) = 255 ∧ xrgb_g (white_row 0) = 255 ∧ xrgb_b (white_row 0) = 255 ∧
    xrgb_r (white_row 1) = 255 ∧ xrgb_g (white_row 1) = 255 ∧ xrgb_b (white_row 1) = 255 ∧
    (List.range 4).map (ms912x_xrgb_to_yuv422_avx2 zero_mem 0 white_row 2)
      = [128, 234, 128, 234] ∧
    ms912x_xrgb_to_yuv422_avx2 zero_mem 0 white_row 2 1 ≠ 235 ∧
    ms912x_xrgb_to_yuv422_avx2 zero_mem 0 white_row 2 3 ≠ 235 := by
  decide

/-! ### C14: macro-pixel packing -/

/-- C15. Encode failure is atomic: when `kmalloc` returns NULL, the encoder
returns `-ENOMEM` and has stored nothing (the destination memory is the one it
was given, not even the header is written), and `ms912x_fb_send_rect`, once
CPU access is granted, returns that error and leaves the device state as it
was: `current_request`, the completion signals, `transfer_len`, the queued
flags and the buffers of both requests. -/
theorem encode_failure_atomic (d : ms912x_device) (fb : drm_framebuffer) (map : iosys_map)
    (rect : drm_rect) (cpu_access : Int) (hcpu : 0 ≤ cpu_access) :
    (∀ (dst : Mem) (r : drm_rect),
      (ms912x_fb_xrgb8888_to_yuv422 dst map fb r none).ret = -ENOMEM ∧
      (ms912x_fb_xrgb8888_to_yuv422 dst map fb r none).buf = dst ∧
      (ms912x_fb_xrgb8888_to_yuv422 dst map fb r none).tail = 0) ∧
    (ms912x_fb_send_rect d fb map rect cpu_access none).ret = -ENOMEM ∧
    (ms912x_fb_send_rect d fb map rect cpu_access none).dev = d ∧
    (ms912x_fb_send_rect d fb map rect cpu_access none).dev.current_request
      = d.current_request ∧
    ∀ i,
      ((ms912x_fb_send_rect d fb map rect cpu_access none).dev.requests i).done
        = (d.requests i).done ∧
      ((ms912x_fb_send_rect d fb map rect cpu_access none).dev.requests i).transfer_len
        = (d.requests i).transfer_len ∧
      ((ms912x_fb_send_rect d fb map rect cpu_access none).dev.requests i).work_queued
        = (d.requests i).work_queued ∧
      ((ms912x_fb_send_rect d fb map rect cpu_access none).dev.requests i).transfer_buffer
        = (d.requests i).transfer_buffer := by
  have hdev : (ms912x_fb_send_rect d fb map rect cpu_access none).dev = d := by
    have hcpu' : ¬ cpu_access < 0 := by omega
    have hr : (-ENOMEM : Int) < 0 := by decide
    simp only [ms912x_fb_send_rect, if_neg hcpu', (encoder_ret_none _ _ _ _).1, if_pos hr,
      (encoder_ret_none _ _ _ _).2.1]
    cases d with
    | mk requests current_request =>
      simp only [ms912x_device.mk.injEq, and_true]
      exact Function.update_eq_self _ _
  refine ⟨fun dst r => encoder_ret_none dst map fb r,
    send_rect_ret_enomem d fb map rect cpu_access hcpu, hdev, ?_, fun i => ?_⟩
  · rw [hdev]
  · rw [hdev]; exact ⟨rfl, rfl, rfl, rfl⟩

/-- Witness for C15: a failed allocation while request 0 is in flight. -/
theorem encode_failure_atomic_witness :
    ((0 : Int) ≤ 0) ∧
    (ms912x_fb_send_rect dev_busy fb_1366 map_black rect_scenario 0 none).ret = -ENOMEM ∧
    (ms912x_fb_send_rect dev_busy fb_1366 map_black rect_scenario 0 none).dev = dev_busy :=
  ⟨le_refl _,
    (encode_failure_atomic dev_busy fb_1366 map_black rect_scenario 0 (le_refl _)).2.1,
    (encode_failure_atomic dev_busy fb_1366 map_black rect_scenario 0 (le_refl _)).2.2.1⟩

/-! ### C16: the accept path -/

/-- C16. Accept path: when encoding succeeds (CPU access granted, scratch row
allocated) and the completion of the previous request is signalled at the
zero-timeout poll, `ms912x_fb_send_rect` returns 0, records
`transfer_len = width * 2 * drm_rect_height(rect) + 16`, the value of this
`int` expression in 32-bit arithmetic, on the current request, queues the work item of the current request and of no other (the
queued flag of the previous request is as before), consumes the signal of the
previous request, leaves the buffer and the lengths of the previous request
untouched, and flips `current_request` to `1 - current_request`. -/
theorem send_rect_accept (d : ms912x_device) (fb : drm_framebuffer) (map : iosys_map)
    (rect : drm_rect) (cpu_access : Int) (temp : Mem)
    (hcpu : 0 ≤ cpu_access) (hd : (d.requests (1 - d.current_request)).done ≠ 0) :
    (ms912x_fb_send_rect d fb map rect cpu_access (some temp)).ret = 0 ∧
    ((ms912x_fb_send_rect d fb map rect cpu_access (some temp)).dev.requests
        d.current_request).transfer_len
      = int_wrap
          (send_rect_width fb rect * 2 * drm_rect_height (send_rect_align fb rect) + 16) ∧
    ((ms912x_fb_send_rect d fb map rect cpu_access (some temp)).dev.requests
        d.current_request).work_queued = true ∧
    ((ms912x_fb_send_rect d fb map rect cpu_access (some temp)).dev.requests
        (1 - d.current_request)).work_queued
      = (d.requests (1 - d.current_request)).work_queued ∧
    ((ms912x_fb_send_rect d fb map rect cpu_access (some temp)).dev.requests
        (1 - d.current_request)).done = (d.requests (1 - d.current_request)).done - 1 ∧
    ((ms912x_fb_send_rect d fb map rect cpu_access (some temp)).dev.requests
        (1 - d.current_request)).transfer_buffer
      = (d.requests (1 - d.current_request)).transfer_buffer ∧
    ((ms912x_fb_send_rect d fb map rect cpu_access (some temp)).dev.requests
        (1 - d.current_request)).transfer_len
      = (d.requests (1 - d.current_request)).transfer_len ∧
    ((ms912x_fb_send_rect d fb map rect cpu_access (some temp)).dev.requests
        (1 - d.current_request)).alloc_len
      = (d.requests (1 - d.current_request)).alloc_len ∧
    (ms912x_fb_send_rect d fb map rect cpu_access (some temp)).dev.current_request
      = 1 - d.current_request := by
  obtain ⟨hret, hc, q1, -, hlen, q2, d2⟩ :=
    send_rect_queued d fb map rect cpu_access temp hcpu hd
  obtain ⟨o1, o2, o3⟩ := send_rect_other_request d fb map rect cpu_access (some temp)
    (1 - d.current_request) (fin2_one_sub_ne d.current_request)
  exact ⟨hret, hlen, q1, q2, d2, o1, o3, o2, hc⟩

/-- Witness for C16: the first frame after the device is primed is accepted
on request 0. -/
theorem send_rect_accept_witness :
    ((0 : Int) ≤ 0) ∧ (dev_primed.requests (1 - dev_primed.current_request)).done ≠ 0 ∧
    (ms912x_fb_send_rect dev_primed fb_1366 map_black rect_scenario 0 (some zero_mem)).ret = 0 ∧
    (ms912x_fb_send_rect dev_primed fb_1366 map_black rect_scenario 0
      (some zero_mem)).dev.current_request = 1 - dev_primed.current_request :=
  ⟨le_refl _, by decide,
    (send_rect_accept dev_primed fb_1366 map_black rect_scenario 0 zero_mem (le_refl _)
      (by decide)).1,
    (send_rect_accept dev_primed fb_1366 map_black rect_scenario 0 zero_mem (le_refl _)
      (by decide)).2.2.2.2.2.2.2.2⟩

/-! ### C17: the recorded length fits the buffer -/

/-- Whatever its outcome, `ms912x_fb_send_rect` leaves `alloc_len` of both
requests as it was. -/
theorem send_rect_alloc_len (d : ms912x_device) (fb : drm_framebuffer) (map : iosys_map)
    (rect : drm_rect) (cpu_access : Int) (temp_buffer : Option Mem) (i : Fin 2) :
    ((ms912x_fb_send_rect d fb map rect cpu_access temp_buffer).dev.requests i).alloc_len
      = (d.requests i).alloc_len := by
  by_cases hi : i = d.current_request
  · by_cases hq : cpu_access < 0 ∨ temp_buffer = none
        ∨ (d.requests (1 - d.current_request)).done = 0
    · exact (send_rect_not_queued d fb map rect cpu_access temp_buffer hq).2.2 i |>.2.2.2.1
    · have hne := fin2_one_sub_ne d.current_request
      subst hi
      simp only [ms912x_fb_send_rect]
      split
      · rfl
      · split
        · simp
        · split
          · simp
          · simp [Function.update_noteq hne.symm]
  · exact (send_rect_other_request d fb map rect cpu_access temp_buffer i hi).2.1

/-- The width the alignment step computes, for a rectangle inside a
framebuffer whose width leaves room for the round-up of `ALIGN`: between 0
and the framebuffer width. -/
theorem send_rect_width_bounds (fb : drm_framebuffer) (rect : drm_rect)
    (hx1 : 0 ≤ rect.x1) (hx : rect.x1 ≤ rect.x2) (hx2 : rect.x2 ≤ (fb.width : Int))
    (hfw : (fb.width : Int) < 2147483632) :
    0 ≤ send_rect_width fb rect ∧ send_rect_width fb rect ≤ (fb.width : Int) ∧
    send_rect_width fb rect % 16 = 0 := by
  have e := int_of_u32_eq fb.width (by omega)
  have eA := ALIGN_eq rect.x2 (by omega) (by omega)
  unfold send_rect_width
  rw [e, eA]
  unfold ALIGN_DOWN
  rcases min_choice (rect.x2 + 15 - (rect.x2 + 15) % 16)
      ((fb.width : Int) - (fb.width : Int) % 16) with h | h <;>
    rw [h, int_wrap_eq _ (by omega) (by omega)] <;> omega

/-- C17, as the code has it. The recorded length never exceeds the buffer
capacity when it fits the `int` it is computed in: for every framebuffer with
`8 + 2 * fb_width * fb_height + 8 < 2^31`, every current request whose
`alloc_len` is at least `8 + 2 * fb_width * fb_height + 8`, and every
rectangle with `0 ≤ x1 ≤ x2 ≤ fb_width` and `0 ≤ y1 ≤ y2 ≤ fb_height`, the
`transfer_len` that `ms912x_fb_send_rect` records when it submits the frame
satisfies `0 ≤ transfer_len ≤ alloc_len`. -/
theorem transfer_len_within_capacity (d : ms912x_device) (fb : drm_framebuffer)
    (map : iosys_map) (rect : drm_rect) (cpu_access : Int) (temp : Mem)
    (hx1 : 0 ≤ rect.x1) (hx : rect.x1 ≤ rect.x2) (hx2 : rect.x2 ≤ (fb.width : Int))
    (hy1 : 0 ≤ rect.y1) (hy : rect.y1 ≤ rect.y2) (hy2 : rect.y2 ≤ (fb.height : Int))
    (hfit : 8 + 2 * (fb.width : Int) * fb.height + 8 < 2147483648)
    (hcap : 8 + 2 * (fb.width : Int) * fb.height + 8
      ≤ ((d.requests d.current_request).alloc_len : Int))
    (hcpu : 0 ≤ cpu_access) (hd : (d.requests (1 - d.current_request)).done ≠ 0) :
    0 ≤ ((ms912x_fb_send_rect d fb map rect cpu_access (some temp)).dev.requests
        d.current_request).transfer_len ∧
    ((ms912x_fb_send_rect d fb map rect cpu_access (some temp)).dev.requests
        d.current_request).transfer_len
      ≤ (((ms912x_fb_send_rect d fb map rect cpu_access (some temp)).dev.requests
          d.current_request).alloc_len : Int) := by
  obtain ⟨-, -, -, -, hlen, -, -⟩ := send_rect_queued d fb map rect cpu_access temp hcpu hd
  have hh : drm_rect_height (send_rect_align fb rect) = int_wrap (rect.y2 - rect.y1) := rfl
  rw [hlen, send_rect_alloc_len, hh]
  have hW : (0 : Int) ≤ fb.width := Int.ofNat_nonneg _
  have hH : (0 : Int) ≤ fb.height := Int.ofNat_nonneg _
  have e2 : 2 * (fb.width : Int) * fb.height = 2 * ((fb.width : Int) * fb.height) := by ring
  rw [e2] at hfit hcap
  have hWH : 0 ≤ (fb.width : Int) * fb.height := mul_nonneg hW hH
  have i16 : int_wrap 16 = 16 := by decide
  rcases Nat.eq_zero_or_pos fb.height with h0 | hpos
  · have e : rect.y2 - rect.y1 = 0 := by omega
    have i0 : int_wrap 0 = 0 := by decide
    rw [e, i0, mul_zero, zero_add, i16]
    omega
  · rcases Nat.eq_zero_or_pos fb.width with w0 | wpos
    · have a : rect.x1 = 0 := by omega
      have b : rect.x2 = 0 := by omega
      have ew : send_rect_width fb rect = 0 := by
        simp only [send_rect_width, a, b, w0]
        decide
      rw [ew, zero_mul, zero_mul, zero_add, i16]
      omega
    · have hH1 : (1 : Int) ≤ fb.height := by omega
      have hW1 : (1 : Int) ≤ fb.width := by omega
      have hWle : (fb.width : Int) ≤ (fb.width : Int) * fb.height :=
        le_mul_of_one_le_right hW hH1
      have hHle : (fb.height : Int) ≤ (fb.width : Int) * fb.height :=
        le_mul_of_one_le_left hH hW1
      obtain ⟨w0, w1, -⟩ := send_rect_width_bounds fb rect hx1 hx hx2 (by omega)
      have h0 : 0 ≤ rect.y2 - rect.y1 := by omega
      have h1 : rect.y2 - rect.y1 ≤ (fb.height : Int) := by omega
      have hp : send_rect_width fb rect * (rect.y2 - rect.y1)
          ≤ (fb.width : Int) * (fb.height : Int) := mul_le_mul w1 h1 h0 hW
      have hn : 0 ≤ send_rect_width fb rect * (rect.y2 - rect.y1) := mul_nonneg w0 h0
      have e3 : send_rect_width fb rect * 2 * (rect.y2 - rect.y1) + 16
          = 2 * (send_rect_width fb rect * (rect.y2 - rect.y1)) + 16 := by ring
      rw [int_wrap_eq (rect.y2 - rect.y1) (by omega) (by omega), e3,
        int_wrap_eq _ (by omega) (by omega)]
      omega

/-- Inside the framebuffer, and as long as the `int` expressions of the
encoder and of the length do not wrap, the recorded length is the number of
bytes the encoder stored: header, rows and marker. -/
theorem transfer_len_eq_written (d : ms912x_device) (fb : drm_framebuffer)
    (map : iosys_map) (rect : drm_rect) (cpu_access : Int) (temp : Mem)
    (hx1 : 0 ≤ rect.x1) (hx : rect.x1 ≤ rect.x2) (hx2 : rect.x2 ≤ (fb.width : Int))
    (hy1 : 0 ≤ rect.y1) (hy : rect.y1 ≤ rect.y2) (hy2 : rect.y2 ≤ (fb.height : Int))
    (hy3 : rect.y2 < 2147483648) (hw4 : (fb.width : Int) * 4 < 2147483648)
    (hfit : 8 + 2 * (fb.width : Int) * fb.height + 8 < 2147483648)
    (hcpu : 0 ≤ cpu_access) (hd : (d.requests (1 - d.current_request)).done ≠ 0) :
    ((ms912x_fb_send_rect d fb map rect cpu_access (some temp)).dev.requests
        d.current_request).transfer_len
      = ((ms912x_fb_xrgb8888_to_yuv422 (d.requests d.current_request).transfer_buffer map fb
          (send_rect_align fb rect) (some temp)).tail : Int) := by
  obtain ⟨-, -, -, -, hlen, -, -⟩ := send_rect_queued d fb map rect cpu_access temp hcpu hd
  obtain ⟨w0, w1, w16⟩ := send_rect_width_bounds fb rect hx1 hx hx2 (by omega)
  have hw : drm_rect_width (send_rect_align fb rect) = send_rect_width fb rect := by
    show int_wrap (int_wrap (ALIGN_DOWN rect.x1 16 + send_rect_width fb rect)
      - ALIGN_DOWN rect.x1 16) = send_rect_width fb rect
    have ha : 0 ≤ ALIGN_DOWN rect.x1 16 ∧ ALIGN_DOWN rect.x1 16 ≤ rect.x1 := by
      unfold ALIGN_DOWN; omega
    generalize send_rect_width fb rect = w at w0 w1
    generalize ALIGN_DOWN rect.x1 16 = a at ha
    unfold int_wrap
    omega
  have hh : drm_rect_height (send_rect_align fb rect) = rect.y2 - rect.y1 := by
    show int_wrap (rect.y2 - rect.y1) = _
    exact int_wrap_eq _ (by omega) (by omega)
  have e1 : (send_rect_align fb rect).y1 = rect.y1 := rfl
  have e2 : (send_rect_align fb rect).y2 = rect.y2 := rfl
  obtain ⟨-, htail, -⟩ := ms912x_fb_xrgb8888_to_yuv422_apply
    (d.requests d.current_request).transfer_buffer map fb (send_rect_align fb rect) temp
    (by rw [hw]; exact w0) (by rw [hw]; omega) (by rw [hw]; omega) (by rw [e2]; omega)
    (by rw [e2]; exact hy3)
  have h0 : 0 ≤ rect.y2 - rect.y1 := by omega
  have h1 : rect.y2 - rect.y1 ≤ (fb.height : Int) := by omega
  have hp : send_rect_width fb rect * (rect.y2 - rect.y1)
      ≤ (fb.width : Int) * (fb.height : Int) :=
    mul_le_mul w1 h1 h0 (Int.ofNat_nonneg _)
  have hn : 0 ≤ send_rect_width fb rect * (rect.y2 - rect.y1) := mul_nonneg w0 h0
  have e3 : send_rect_width fb rect * 2 * (rect.y2 - rect.y1) + 16
      = 2 * (send_rect_width fb rect * (rect.y2 - rect.y1)) + 16 := by ring
  have e4 : 2 * (fb.width : Int) * fb.height = 2 * ((fb.width : Int) * fb.height) := by ring
  rw [e4] at hfit
  rw [hlen, htail, hw, hh, e1, e2, min_eq_left hy2, e3, int_wrap_eq _ (by omega) (by omega)]
  push_cast
  rw [Int.toNat_of_nonneg (by omega), Int.toNat_of_nonneg (by omega)]
  ring

/-- Witness for C17: the scenario rectangle on the 1366 x 768 framebuffer, with
buffers of 16 + 2 * 1366 * 768 bytes. -/
theorem transfer_len_within_capacity_witness :
    (0 : Int) ≤ rect_scenario.x1 ∧ rect_scenario.x1 ≤ rect_scenario.x2 ∧
    rect_scenario.x2 ≤ (fb_1366.width : Int) ∧ 0 ≤ rect_scenario.y1 ∧
    rect_scenario.y1 ≤ rect_scenario.y2 ∧ rect_scenario.y2 ≤ (fb_1366.height : Int) ∧
    8 + 2 * (fb_1366.width : Int) * fb_1366.height + 8 < 2147483648 ∧
    8 + 2 * (fb_1366.width : Int) * fb_1366.height + 8
      ≤ ((dev_primed.requests dev_primed.current_request).alloc_len : Int) ∧
    (0 : Int) ≤ 0 ∧ (dev_primed.requests (1 - dev_primed.current_request)).done ≠ 0 ∧
    ((ms912x_fb_send_rect dev_primed fb_1366 map_black rect_scenario 0
        (some zero_mem)).dev.requests dev_primed.current_request).transfer_len
      ≤ (((ms912x_fb_send_rect dev_primed fb_1366 map_black rect_scenario 0
          (some zero_mem)).dev.requests dev_primed.current_request).alloc_len : Int) :=
  ⟨by decide, by decide, by decide, by decide, by decide, by decide, by decide, by decide,
    by decide, by decide,
    (transfer_len_within_capacity dev_primed fb_1366 map_black rect_scenario 0 zero_mem
      (by decide) (by decide) (by decide) (by decide) (by decide) (by decide) (by decide)
      (by decide) (by decide) (by decide)).2⟩

/-- Counterexample to C17 as stated: on the 65536 x 16384 framebuffer, with
buffers of 8 + 2 * 65536 * 16384 + 8 = 2147483664 bytes, the full-frame
rectangle (0, 0, 65536, 16384) is accepted, and the `int` expression
`width * 2 * drm_rect_height(rect) + 16`, whose value over the integers is
2^31 + 16, wraps: the recorded `transfer_len` is -2147483632, which is not
`≥ 0`. -/
theorem transfer_len_wraps_negative :
    (0 : Int) ≤ rect_64k_16k.x1 ∧ rect_64k_16k.x1 ≤ rect_64k_16k.x2 ∧
    rect_64k_16k.x2 ≤ (fb_64k_16k.width : Int) ∧ 0 ≤ rect_64k_16k.y1 ∧
    rect_64k_16k.y1 ≤ rect_64k_16k.y2 ∧ rect_64k_16k.y2 ≤ (fb_64k_16k.height : Int) ∧
    8 + 2 * (fb_64k_16k.width : Int) * fb_64k_16k.height + 8
      ≤ ((dev_large.requests dev_large.current_request).alloc_len : Int) ∧
    (ms912x_fb_send_rect dev_large fb_64k_16k map_black rect_64k_16k 0 (some zero_mem)).ret
      = 0 ∧
    ((ms912x_fb_send_rect dev_large fb_64k_16k map_black rect_64k_16k 0
        (some zero_mem)).dev.requests dev_large.current_request).work_queued = true ∧
    ((ms912x_fb_send_rect dev_large fb_64k_16k map_black rect_64k_16k 0
        (some zero_mem)).dev.requests dev_large.current_request).transfer_len
      = -2147483632 ∧
    ¬ (0 ≤ ((ms912x_fb_send_rect dev_large fb_64k_16k map_black rect_64k_16k 0
        (some zero_mem)).dev.requests dev_large.current_request).transfer_len) := by
  obtain ⟨hret, -, hq, -, hlen, -, -⟩ :=
    send_rect_queued dev_large fb_64k_16k map_black rect_64k_16k 0 zero_mem (le_refl _)
      (by decide)
  have hv : int_wrap (send_rect_width fb_64k_16k rect_64k_16k * 2
      * drm_rect_height (send_rect_align fb_64k_16k rect_64k_16k) + 16) = -2147483632 := by
    decide
  rw [hlen, hv]
  exact ⟨by decide, by decide, by decide, by decide, by decide, by decide, by decide, hret,
    hq, rfl, by decide⟩

/-! ### C18: the converter stays in video range -/

theorem ms912x_rgb_to_y_range (r g b : Nat) (hr : r < 256) (hg : g < 256) (hb : b < 256) :
    y_no_wrap r g b ∧ 16 ≤ ms912x_rgb_to_y r g b ∧ ms912x_rgb_to_y r g b ≤ 235 := by
  unfold y_no_wrap ms912x_rgb_to_y
  rw [Nat.shiftRight_eq_div_pow]
  have hS : (1048576 + 16763 * r + 32904 * g + 6391 * b) % 4294967296
      = 1048576 + 16763 * r + 32904 * g + 6391 * b := Nat.mod_eq_of_lt (by omega)
  rw [hS]
  omega

theorem ms912x_rgb_to_u_range (r g b : Nat) (hr : r < 256) (hg : g < 256) (hb : b < 256) :
    u_no_wrap r g b ∧ 16 ≤ ms912x_rgb_to_u r g b ∧ ms912x_rgb_to_u r g b ≤ 240 := by
  unfold u_no_wrap ms912x_rgb_to_u u32_of_int
  rw [Nat.shiftRight_eq_div_pow]
  have h0 : (0 : Int) ≤ 8388608 - 9676 * (r : Int) - 18996 * g + 28672 * b := by omega
  have h1 : 8388608 - 9676 * (r : Int) - 18996 * g + 28672 * b < 15728640 := by omega
  have h2 : (1048576 : Int) ≤ 8388608 - 9676 * (r : Int) - 18996 * g + 28672 * b := by omega
  have hS : (8388608 - 9676 * (r : Int) - 18996 * g + 28672 * b) % 4294967296
      = 8388608 - 9676 * (r : Int) - 18996 * g + 28672 * b :=
    Int.emod_eq_of_lt h0 (by omega)
  rw [hS]
  refine ⟨⟨by omega, by omega, h0, by omega, ?_⟩, ?_, ?_⟩ <;>
    (generalize 8388608 - 9676 * (r : Int) - 18996 * g + 28672 * b = e at h0 h1 h2; omega)

theorem ms912x_rgb_to_v_range (r g b : Nat) (hr : r < 256) (hg : g < 256) (hb : b < 256) :
    v_no_wrap r g b ∧ 16 ≤ ms912x_rgb_to_v r g b ∧ ms912x_rgb_to_v r g b ≤ 240 := by
  unfold v_no_wrap ms912x_rgb_to_v u32_of_int
  rw [Nat.shiftRight_eq_div_pow]
  have h0 : (0 : Int) ≤ 8388608 + 28672 * (r : Int) - 24009 * g - 4663 * b := by omega
  have h1 : 8388608 + 28672 * (r : Int) - 24009 * g - 4663 * b < 15728640 := by omega
  have h2 : (1048576 : Int) ≤ 8388608 + 28672 * (r : Int) - 24009 * g - 4663 * b := by omega
  have hS : (8388608 + 28672 * (r : Int) - 24009 * g - 4663 * b) % 4294967296
      = 8388608 + 28672 * (r : Int) - 24009 * g - 4663 * b :=
    Int.emod_eq_of_lt h0 (by omega)
  rw [hS]
  refine ⟨⟨by omega, by omega, h0, by omega, ?_⟩, ?_, ?_⟩ <;>
    (generalize 8388608 + 28672 * (r : Int) - 24009 * g - 4663 * b = e at h0 h1 h2; omega)

/-- C18. The converter output stays in video range without clamping: for every
pixel pair the loop reaches, the `u32` computations of `ms912x_rgb_to_y` (on
the channels of each pixel) and of `ms912x_rgb_to_u`, `ms912x_rgb_to_v` (on
the averaged channels) never leave 0 .. 2^32 - 1 and yield values below 256,
so the bytes stored are these values themselves; both luma bytes lie in
16 .. 235 and the U and V bytes lie in 16 .. 240. -/
theorem video_range (m : Mem) (dst : Nat) (src : Nat → Nat) (width : Int) (j : Nat)
    (hj : (2 * j : Int) < width) :
    y_no_wrap (xrgb_r (src (2 * j))) (xrgb_g (src (2 * j))) (xrgb_b (src (2 * j))) ∧
    y_no_wrap (xrgb_r (src (2 * j + 1))) (xrgb_g (src (2 * j + 1)))
      (xrgb_b (src (2 * j + 1))) ∧
    u_no_wrap ((xrgb_r (src (2 * j)) + xrgb_r (src (2 * j + 1))) / 2)
      ((xrgb_g (src (2 * j)) + xrgb_g (src (2 * j + 1))) / 2)
      ((xrgb_b (src (2 * j)) + xrgb_b (src (2 * j + 1))) / 2) ∧
    v_no_wrap ((xrgb_r (src (2 * j)) + xrgb_r (src (2 * j + 1))) / 2)
      ((xrgb_g (src (2 * j)) + xrgb_g (src (2 * j + 1))) / 2)
      ((xrgb_b (src (2 * j)) + xrgb_b (src (2 * j + 1))) / 2) ∧
    ms912x_xrgb_to_yuv422_avx2 m dst src width (dst + 4 * j)
      = ms912x_rgb_to_u ((xrgb_r (src (2 * j)) + xrgb_r (src (2 * j + 1))) / 2)
          ((xrgb_g (src (2 * j)) + xrgb_g (src (2 * j + 1))) / 2)
          ((xrgb_b (src (2 * j)) + xrgb_b (src (2 * j + 1))) / 2) ∧
    ms912x_xrgb_to_yuv422_avx2 m dst src width (dst + 4 * j + 1)
      = ms912x_rgb_to_y (xrgb_r (src (2 * j))) (xrgb_g (src (2 * j)))
          (xrgb_b (src (2 * j))) ∧
    ms912x_xrgb_to_yuv422_avx2 m dst src width (dst + 4 * j + 2)
      = ms912x_rgb_to_v ((xrgb_r (src (2 * j)) + xrgb_r (src (2 * j + 1))) / 2)
          ((xrgb_g (src (2 * j)) + xrgb_g (src (2 * j + 1))) / 2)
          ((xrgb_b (src (2 * j)) + xrgb_b (src (2 * j + 1))) / 2) ∧
    ms912x_xrgb_to_yuv422_avx2 m dst src width (dst + 4 * j + 3)
      = ms912x_rgb_to_y (xrgb_r (src (2 * j + 1))) (xrgb_g (src (2 * j + 1)))
          (xrgb_b (src (2 * j + 1))) ∧
    (16 ≤ ms912x_xrgb_to_yuv422_avx2 m dst src width (dst + 4 * j) ∧
      ms912x_xrgb_to_yuv422_avx2 m dst src width (dst + 4 * j) ≤ 240) ∧
    (16 ≤ ms912x_xrgb_to_yuv422_avx2 m dst src width (dst + 4 * j + 1) ∧
      ms912x_xrgb_to_yuv422_avx2 m dst src width (dst + 4 * j + 1) ≤ 235) ∧
    (16 ≤ ms912x_xrgb_to_yuv422_avx2 m dst src width (dst + 4 * j + 2) ∧
      ms912x_xrgb_to_yuv422_avx2 m dst src width (dst + 4 * j + 2) ≤ 240) ∧
    (16 ≤ ms912x_xrgb_to_yuv422_avx2 m dst src width (dst + 4 * j + 3) ∧
      ms912x_xrgb_to_yuv422_avx2 m dst src width (dst + 4 * j + 3) ≤ 235) := by
  obtain ⟨r1, g1, b1⟩ := xrgb_channels_lt (src (2 * j))
  obtain ⟨r2, g2, b2⟩ := xrgb_channels_lt (src (2 * j + 1))
  obtain ⟨l0, l1, l2, l3⟩ := macropixel_byte_lanes (src (2 * j)) (src (2 * j + 1))
  have b0 := macropixel_bytes m dst src width j hj 0 (by decide)
  have b1' := macropixel_bytes m dst src width j hj 1 (by decide)
  have b2' := macropixel_bytes m dst src width j hj 2 (by decide)
  have b3 := macropixel_bytes m dst src width j hj 3 (by decide)
  rw [Nat.add_zero] at b0
  obtain ⟨y1w, y1lo, y1hi⟩ := ms912x_rgb_to_y_range _ _ _ r1 g1 b1
  obtain ⟨y2w, y2lo, y2hi⟩ := ms912x_rgb_to_y_range _ _ _ r2 g2 b2
  obtain ⟨uw, ulo, uhi⟩ := ms912x_rgb_to_u_range
    ((xrgb_r (src (2 * j)) + xrgb_r (src (2 * j + 1))) / 2)
    ((xrgb_g (src (2 * j)) + xrgb_g (src (2 * j + 1))) / 2)
    ((xrgb_b (src (2 * j)) + xrgb_b (src (2 * j + 1))) / 2) (by omega) (by omega) (by omega)
  obtain ⟨vw, vlo, vhi⟩ := ms912x_rgb_to_v_range
    ((xrgb_r (src (2 * j)) + xrgb_r (src (2 * j + 1))) / 2)
    ((xrgb_g (src (2 * j)) + xrgb_g (src (2 * j + 1))) / 2)
    ((xrgb_b (src (2 * j)) + xrgb_b (src (2 * j + 1))) / 2) (by omega) (by omega) (by omega)
  rw [b0, b1', b2', b3, l0, l1, l2, l3, Nat.mod_eq_of_lt uw.2.2.2.2, Nat.mod_eq_of_lt y1w.2,
    Nat.mod_eq_of_lt vw.2.2.2.2, Nat.mod_eq_of_lt y2w.2]
  exact ⟨y1w, y2w, uw, vw, rfl, rfl, rfl, rfl, ⟨ulo, uhi⟩, ⟨y1lo, y1hi⟩, ⟨vlo, vhi⟩,
    ⟨y2lo, y2hi⟩⟩

/-- Witness for C18: the macro-pixel of two white pixels. -/
theorem video_range_witness :
    ((2 * (0 : Nat) : Int) < 2) ∧
    (16 ≤ ms912x_xrgb_to_yuv422_avx2 zero_mem 0 white_row 2 (0 + 4 * 0 + 1) ∧
      ms912x_xrgb_to_yuv422_avx2 zero_mem 0 white_row 2 (0 + 4 * 0 + 1) ≤ 235) :=
  ⟨by decide, (video_range zero_mem 0 white_row 2 0 (by decide)).2.2.2.2.2.2.2.2.2.1⟩

/-! ### C19: the aligned span -/

/-- C19, as the code has it. The aligned span is a well-formed superset of
the requested span when the alignment stays inside the `int` range: for every
`fb_width < 2^31` and every rectangle with `0 ≤ x1 ≤ x2 ≤ fb_width` and
`x2 ≤ 2^31 - 16`, the rectangle rewritten by `ms912x_fb_send_rect` has
`x1' ≤ x1`, `x2' ≥ min(x2, floor_to_16(fb_width))` and `x1' ≤ x2'`; in
particular when `x2 ≤ floor_to_16(fb_width)` every requested column is
covered.  The rows are left as they are. -/
theorem aligned_span_superset (fb : drm_framebuffer) (rect : drm_rect)
    (hx1 : 0 ≤ rect.x1) (hx : rect.x1 ≤ rect.x2) (hx2 : rect.x2 ≤ (fb.width : Int))
    (hfw : (fb.width : Int) < 2147483648) (hxa : rect.x2 ≤ 2147483632) :
    (send_rect_align fb rect).x1 ≤ rect.x1 ∧
    min rect.x2 (ALIGN_DOWN (fb.width : Int) 16) ≤ (send_rect_align fb rect).x2 ∧
    (send_rect_align fb rect).x1 ≤ (send_rect_align fb rect).x2 ∧
    (rect.x2 ≤ ALIGN_DOWN (fb.width : Int) 16 →
      (send_rect_align fb rect).x1 ≤ rect.x1 ∧ rect.x2 ≤ (send_rect_align fb rect).x2) ∧
    (send_rect_align fb rect).y1 = rect.y1 ∧ (send_rect_align fb rect).y2 = rect.y2 := by
  obtain ⟨e1, e2⟩ := send_rect_align_xs fb rect
  have e := int_of_u32_eq fb.width (by omega)
  have eA := ALIGN_eq rect.x2 (by omega) hxa
  rw [e1, e2, e, eA]
  unfold ALIGN_DOWN
  refine ⟨by omega, ?_, ?_, fun h => ⟨by omega, ?_⟩, rfl, rfl⟩
  · rcases min_choice (rect.x2 + 15 - (rect.x2 + 15) % 16)
        ((fb.width : Int) - (fb.width : Int) % 16) with h | h <;> rw [h]
    · exact le_trans (min_le_left _ _) (by omega)
    · exact min_le_right _ _
  · rcases min_choice (rect.x2 + 15 - (rect.x2 + 15) % 16)
        ((fb.width : Int) - (fb.width : Int) % 16) with h | h <;> rw [h] <;> omega
  · rcases min_choice (rect.x2 + 15 - (rect.x2 + 15) % 16)
        ((fb.width : Int) - (fb.width : Int) % 16) with h' | h' <;> rw [h'] <;> omega

/-- Witness for C19: the scenario rectangle on the 1366-wide framebuffer. -/
theorem aligned_span_superset_witness :
    (0 : Int) ≤ rect_scenario.x1 ∧ rect_scenario.x1 ≤ rect_scenario.x2 ∧
    rect_scenario.x2 ≤ (fb_1366.width : Int) ∧ (fb_1366.width : Int) < 2147483648 ∧
    rect_scenario.x2 ≤ 2147483632 ∧
    (send_rect_align fb_1366 rect_scenario).x1 ≤ rect_scenario.x1 ∧
    (send_rect_align fb_1366 rect_scenario).x1 ≤ (send_rect_align fb_1366 rect_scenario).x2 :=
  ⟨by decide, by decide, by decide, by decide, by decide,
    (aligned_span_superset fb_1366 rect_scenario (by decide) (by decide) (by decide)
      (by decide) (by decide)).1,
    (aligned_span_superset fb_1366 rect_scenario (by decide) (by decide) (by decide)
      (by decide) (by decide)).2.2.1⟩

/-- Counterexample to C19 as stated, on two inputs.  First, for
`fb_width = 2^32 - 1` and the rectangle (0, 0, 16, 1), which has
`0 ≤ x1 ≤ x2 ≤ fb_width`: `(int)fb->width` is -1, `ALIGN_DOWN(-1, 16)` is -16,
and the rewritten rectangle has `x1' = 0` and `x2' = -16`, so neither
`x1' ≤ x2'` nor `x2' ≥ min(x2, floor_to_16(fb_width)) = 16` holds.  Second,
for `x2 = fb_width = 2^31 - 1`: `ALIGN(x2, 16)` wraps to -2^31, and the
rewritten rectangle has `x1' = 0` and `x2' = -2^31`. -/
theorem aligned_span_wraps :
    ((0 : Int) ≤ rect_first_16.x1 ∧ rect_first_16.x1 ≤ rect_first_16.x2 ∧
      rect_first_16.x2 ≤ (fb_width_u32_max.width : Int) ∧
      (send_rect_align fb_width_u32_max rect_first_16).x1 = 0 ∧
      (send_rect_align fb_width_u32_max rect_first_16).x2 = -16 ∧
      min rect_first_16.x2 (ALIGN_DOWN (fb_width_u32_max.width : Int) 16) = 16 ∧
      ¬ ((send_rect_align fb_width_u32_max rect_first_16).x1
          ≤ (send_rect_align fb_width_u32_max rect_first_16).x2) ∧
      ¬ (min rect_first_16.x2 (ALIGN_DOWN (fb_width_u32_max.width : Int) 16)
          ≤ (send_rect_align fb_width_u32_max rect_first_16).x2)) ∧
    ((0 : Int) ≤ rect_int_max.x1 ∧ rect_int_max.x1 ≤ rect_int_max.x2 ∧
      rect_int_max.x2 ≤ (fb_width_int_max.width : Int) ∧
      (send_rect_align fb_width_int_max rect_int_max).x1 = 0 ∧
      (send_rect_align fb_width_int_max rect_int_max).x2 = -2147483648 ∧
      min rect_int_max.x2 (ALIGN_DOWN (fb_width_int_max.width : Int) 16) = 2147483632 ∧
      ¬ ((send_rect_align fb_width_int_max rect_int_max).x1
          ≤ (send_rect_align fb_width_int_max rect_int_max).x2) ∧
      ¬ (min rect_int_max.x2 (ALIGN_DOWN (fb_width_int_max.width : Int) 16)
          ≤ (send_rect_align fb_width_int_max rect_int_max).x2)) := by
  decide

/-! ### C20: the unused byte -/

/-- The channels the converter extracts depend on the low 24 bits only. -/
theorem xrgb_channels_mod (p : Nat) :
    (p >>> 16) &&& 0xFF = ((p % 16777216) >>> 16) &&& 0xFF ∧
    (p >>> 8) &&& 0xFF = ((p % 16777216) >>> 8) &&& 0xFF ∧
    p &&& 0xFF = (p % 16777216) &&& 0xFF := by
  have h : ∀ x : Nat, x &&& 0xFF = x % 256 := fun x => Nat.and_pow_two_sub_one_eq_mod x 8
  simp only [h, Nat.shiftRight_eq_div_pow]
  omega

theorem macropixel_byte_mod (p1 p2 lane : Nat) :
    macropixel_byte p1 p2 lane = macropixel_byte (p1 % 16777216) (p2 % 16777216) lane := by
  obtain ⟨r1, g1, b1⟩ := xrgb_channels_mod p1
  obtain ⟨r2, g2, b2⟩ := xrgb_channels_mod p2
  simp only [macropixel_byte]
  rw [r1, g1, b1, r2, g2, b2]

theorem white_rows_agree (i : Nat) : white_row i % 16777216 = white_row_x0 i % 16777216 := by
  show 0xFFFFFFFF % 16777216 = 0x00FFFFFF % 16777216
  decide

/-- C20. The unused X byte never influences the output: for every even width
and every two source rows whose pixels agree on their low 24 bits (R, G, B),
whatever their bits 24 to 31, `ms912x_xrgb_to_yuv422_avx2` leaves the same
memory behind. -/
theorem x_byte_ignored (m : Mem) (dst : Nat) (src src' : Nat → Nat) (width : Int)
    (hw2 : width % 2 = 0)
    (h : ∀ i : Nat, (i : Int) < width → src i % 16777216 = src' i % 16777216) :
    ms912x_xrgb_to_yuv422_avx2 m dst src width = ms912x_xrgb_to_yuv422_avx2 m dst src' width := by
  funext k
  rw [ms912x_xrgb_to_yuv422_avx2_apply, ms912x_xrgb_to_yuv422_avx2_apply]
  by_cases hk : dst ≤ k ∧ k < dst + 4 * ((width + 1) / 2).toNat
  · rw [if_pos hk, if_pos hk]
    unfold yuv422_row_byte
    rw [macropixel_byte_mod (src _), macropixel_byte_mod (src' _),
      h (2 * ((k - dst) / 4)) (by push_cast; omega),
      h (2 * ((k - dst) / 4) + 1) (by push_cast; omega)]
  · rw [if_neg hk, if_neg hk]

/-- Witness for C20: two white rows, one with the X byte set and one with it
clear. -/
theorem x_byte_ignored_witness :
    ((2 : Int) % 2 = 0) ∧
    (∀ i : Nat, (i : Int) < 2 → white_row i % 16777216 = white_row_x0 i % 16777216) ∧
    white_row 0 ≠ white_row_x0 0 ∧
    ms912x_xrgb_to_yuv422_avx2 zero_mem 0 white_row 2
      = ms912x_xrgb_to_yuv422_avx2 zero_mem 0 white_row_x0 2 :=
  ⟨by decide, fun i _ => white_rows_agree i, by decide,
    x_byte_ignored zero_mem 0 white_row white_row_x0 2 (by decide)
      (fun i _ => white_rows_agree i)⟩

end Ms912x
